import Mathlib

/-! Airdrop catalogue backend: listing queries and wallet login.

A shallow embedding of the request handlers of the two backend variants
(`airdrop-discovery` and `koltech web`) together with the two frontend helpers
they share a message format with.

Conventions of the embedding.

* Library primitives are not re-implemented.  `ethers.isAddress` and
  `ethers.verifyMessage` are fields of `Ethers`; the coercion of a string to a
  number that JavaScript applies in `page - 1` is the argument `toNum` of the
  handlers.  Every theorem holds for all values of these parameters.
* The value of `process.env.JWT_SECRET` is a field of `ServerEnv`; signing a
  token throws when it is not set.
* JavaScript numbers are `JSNumber`: `NaN`, the two infinities, and the finite
  doubles, held as rationals.  The operators `-` and `*` round their exact
  result to the nearest double (`roundDouble`).  The two zeros are one value.
* Query-string parameters are absent or strings.
* A string is the list of its characters; the characters the sanitisers search
  for and insert are all ASCII.
* A database statement is taken from the call site: the template text and the
  array of bound values.
-/

namespace Airdrops

/-! ## JavaScript values -/

/-- A JavaScript number: `NaN`, plus or minus infinity, or a finite value. -/
inductive JSNumber where
  | nan
  | inf (negative : Bool)
  | fin (q : ℚ)
  deriving DecidableEq

namespace JSNumber

/-- Rounding to the nearest integer, a tie going to the even one. -/
def roundHalfEven (x : ℚ) : ℤ :=
  if x - ⌊x⌋ < 1 / 2 then ⌊x⌋
  else if 1 / 2 < x - ⌊x⌋ then ⌊x⌋ + 1
  else if ⌊x⌋ % 2 = 0 then ⌊x⌋ else ⌊x⌋ + 1

/-- The double nearest to a rational (IEEE 754 binary64, round to nearest, ties
to even).  With `e` the binary exponent of the value, not below -1022, doubles
near it are the multiples of `2 ^ (e - 52)`; a result of magnitude `2 ^ 1024`
or more is an infinity. -/
def roundDouble (q : ℚ) : JSNumber :=
  if q = 0 then fin 0
  else
    let e := max (Int.log 2 |q|) (-1022)
    let ulp : ℚ := 2 ^ (e - 52)
    let r : ℚ := roundHalfEven (|q| / ulp) * ulp
    if 2 ^ 1024 ≤ r then inf (decide (q < 0))
    else fin (if q < 0 then -r else r)

/-- The operator `-` on numbers. -/
def sub : JSNumber → JSNumber → JSNumber
  | nan, _ => nan
  | _, nan => nan
  | inf a, inf b => if a = b then nan else inf a
  | inf a, fin _ => inf a
  | fin _, inf b => inf (!b)
  | fin x, fin y => roundDouble (x - y)

/-- The operator `*` on numbers. -/
def mul : JSNumber → JSNumber → JSNumber
  | nan, _ => nan
  | _, nan => nan
  | inf a, inf b => inf (a != b)
  | inf a, fin y => if y = 0 then nan else inf (a != decide (y < 0))
  | fin x, inf b => if x = 0 then nan else inf (decide (x < 0) != b)
  | fin x, fin y => roundDouble (x * y)

/-- An integer as a number. -/
def ofInt (n : ℤ) : JSNumber := fin n

end JSNumber

/-- The values that reach the parameter array of a listing statement: strings
taken from the query string, and numbers (the defaults and the offset). -/
inductive JSValue where
  | str (s : String)
  | num (x : JSNumber)
  deriving DecidableEq

/-- Numeric coercion of a value; `toNum` is the runtime's conversion of a
string to a number. -/
def JSValue.toNumber (toNum : String → JSNumber) : JSValue → JSNumber
  | .str s => toNum s
  | .num x => x

/-- The parsed query string of a listing request (`req.query`): each of the five
parameters read by the handlers is absent or a string. -/
structure ListRequest where
  chain : Option String
  status : Option String
  search : Option String
  page : Option String
  limit : Option String
  deriving DecidableEq

/-- Truthiness of a query parameter, as tested by `if (chain)`: present and not
the empty string. -/
def truthy : Option String → Bool
  | some s => s != ""
  | none => false

/-- Destructuring default `page = 1` / `limit = 10`: the default applies when the
parameter is absent. -/
def withDefault (v : Option String) (d : ℚ) : JSValue :=
  match v with
  | some s => .str s
  | none => .num (.fin d)

/-- The strings a filter binds: the parameter's value when it is populated. -/
def populatedValue (v : Option String) : List String :=
  match v with
  | some s => if s != "" then [s] else []
  | none => []

/-- A statement handed to the database driver: template text and bound values. -/
structure Statement where
  query : String
  params : List JSValue
  deriving DecidableEq

/-- Append `AND <predicate>` and its bound values when the filter is populated. -/
def addFilter (st : Statement) (v : Option String) (clause : String)
    (bind : String → List JSValue) : Statement :=
  match v with
  | some s => if s != "" then ⟨st.query ++ clause, st.params ++ bind s⟩ else st
  | none => st

/-- The value `(page - 1) * limit`. -/
def offsetOf (toNum : String → JSNumber) (page limit : JSValue) : JSNumber :=
  ((page.toNumber toNum).sub (.fin 1)).mul (limit.toNumber toNum)

namespace AirdropDiscovery

/-- The statement built by `router.get('/')` of
`airdrop-discovery/backend/routes/airdrops.js` (lines 21-49). -/
def buildListQuery (toNum : String → JSNumber) (q : ListRequest) : Statement :=
  let page := withDefault q.page 1
  let limit := withDefault q.limit 10
  let st : Statement := ⟨"SELECT * FROM airdrops WHERE 1=1", []⟩
  let st := addFilter st q.chain " AND chain = ?" (fun c => [.str c])
  let st := addFilter st q.status " AND status = ?" (fun s => [.str s])
  let st := addFilter st q.search " AND (project_name LIKE ? OR description LIKE ?)"
    (fun s => [.str ("%" ++ s ++ "%"), .str ("%" ++ s ++ "%")])
  let offset := offsetOf toNum page limit
  ⟨st.query ++ " ORDER BY created_at DESC LIMIT ? OFFSET ?",
    st.params ++ [limit, .num offset]⟩

end AirdropDiscovery

namespace Koltech

/-- The statement built by `router.get('/')` of
`koltech web/backend/routes/airdrops.js` (lines 10-27); this variant has no
`search` filter. -/
def buildListQuery (toNum : String → JSNumber) (q : ListRequest) : Statement :=
  let page := withDefault q.page 1
  let limit := withDefault q.limit 10
  let offset := offsetOf toNum page limit
  let st : Statement := ⟨"SELECT * FROM airdrops WHERE 1=1", []⟩
  let st := addFilter st q.chain " AND chain = ?" (fun c => [.str c])
  let st := addFilter st q.status " AND status = ?" (fun s => [.str s])
  ⟨st.query ++ " ORDER BY created_at DESC LIMIT ? OFFSET ?",
    st.params ++ [limit, .num offset]⟩

end Koltech


/-! ## The listing handlers and the database call -/

/-- What `db.all(query, params, callback)` passes to its callback: an error with
its message, or the selected rows. -/
inductive DbAll (Row : Type) where
  | error (message : String)
  | rows (rs : List Row)

/-- The response of a listing request. -/
inductive ListResponse (Row : Type) where
  | json (rows : List Row)
  | error (status : Nat) (message : String)

/-- A handled listing request: the statements passed to the database, in
order, and the response sent. -/
structure Handled (Row : Type) where
  sent : List Statement
  response : ListResponse Row

namespace AirdropDiscovery

/-- The handler `router.get('/')` of
`airdrop-discovery/backend/routes/airdrops.js` (lines 20-58). -/
def listAirdrops {Row : Type} (toNum : String → JSNumber) (dbAll : Statement → DbAll Row)
    (q : ListRequest) : Handled Row :=
  let st := buildListQuery toNum q
  match dbAll st with
  | .error _ => ⟨[st], .error 500 "Database error"⟩
  | .rows rs => ⟨[st], .json rs⟩

end AirdropDiscovery

namespace Koltech

/-- The handler `router.get('/')` of `koltech web/backend/routes/airdrops.js`
(lines 9-36). -/
def listAirdrops {Row : Type} (toNum : String → JSNumber) (dbAll : Statement → DbAll Row)
    (q : ListRequest) : Handled Row :=
  let st := buildListQuery toNum q
  match dbAll st with
  | .error message => ⟨[st], .error 500 message⟩
  | .rows rs => ⟨[st], .json rs⟩

end Koltech

/-! ## The ordering clause -/

/-- The text that follows the first occurrence of `pat`, if there is one. -/
def afterFirst (pat : List Char) : List Char → Option (List Char)
  | [] => none
  | c :: cs =>
    if pat.isPrefixOf (c :: cs) then some ((c :: cs).drop pat.length) else afterFirst pat cs

/-- The text that precedes the first occurrence of `pat` (all of it when `pat`
does not occur). -/
def beforeFirst (pat : List Char) : List Char → List Char
  | [] => []
  | c :: cs => if pat.isPrefixOf (c :: cs) then [] else c :: beforeFirst pat cs

/-- Split at every comma. -/
def splitCommas : List Char → List (List Char)
  | [] => [[]]
  | c :: cs =>
    match splitCommas cs with
    | [] => [[c]]
    | t :: ts => if c = ',' then [] :: t :: ts else (c :: t) :: ts

/-- The sort terms of a statement: the comma-separated items between
`ORDER BY` and `LIMIT`. -/
def orderByTerms (query : String) : List String :=
  match afterFirst " ORDER BY ".toList query.toList with
  | none => []
  | some rest => (splitCommas (beforeFirst " LIMIT ".toList rest)).map String.mk

/-- The columns of an `airdrops` row that the ordering is about: the primary
key `id` (the column of `WHERE id = ?`) and `created_at`. -/
structure AirdropRow where
  id : Nat
  created_at : Nat
  deriving DecidableEq

/-- Newest first: the order requested by `ORDER BY created_at DESC`. -/
def newestFirst (a b : AirdropRow) : Prop := b.created_at ≤ a.created_at

instance : DecidableRel newestFirst := fun a b => Nat.decLe b.created_at a.created_at

/-- What a statement ending in `ORDER BY created_at DESC LIMIT limit OFFSET
offset` guarantees of the rows it returns from the `selected` rows: they are the
window of `limit` rows after the first `offset` of some arrangement of the
selected rows in which creation times do not increase.  How rows with equal
creation times are arranged is not fixed by the statement, and may differ from
one execution to the next. -/
def IsPage (selected : List AirdropRow) (limit offset : Nat) (page : List AirdropRow) : Prop :=
  ∃ ordered : List AirdropRow,
    ordered.Perm selected ∧ ordered.Sorted newestFirst ∧
      page = (ordered.drop offset).take limit

/-! ## Wallet login (`airdrop-discovery/backend/server.js`) -/

/-- The two functions of the `ethers` library that the login code calls. -/
structure Ethers where
  /-- `ethers.isAddress(value)`. -/
  isAddress : String → Bool
  /-- `ethers.verifyMessage(message, signature)`: the recovered signer address,
  or `none` when the call throws. -/
  verifyMessage : String → String → Option String

/-- The environment of the server: the `ethers` library and the value of
`process.env.JWT_SECRET`, `none` when the variable is not set. -/
structure ServerEnv extends Ethers where
  jwtSecret : Option String

/-- The method `toLowerCase()` on the strings compared by the login code.  Only
the letters `A`-`Z` are changed, which is what the method does on the ASCII
strings that are addresses. -/
def toLowerCase (s : String) : String := String.mk (s.toList.map Char.toLower)

/-- The message the server rebuilds from the stored nonce (`server.js`, line 95). -/
def message (nonce : String) : String :=
  "Sign this message to verify your wallet. Nonce: " ++ nonce

/-- The helper `generateNonceMessage` of `airdrop-discovery/frontend/lib/web3.ts`. -/
def generateNonceMessage (nonce : String) : String :=
  "Sign this message to verify your wallet. Nonce: " ++ nonce

/-- The helper `verifySignature` of `koltech web/frontend/lib/web3.ts`. -/
def verifySignature (E : Ethers) (message signature address : String) : Bool :=
  match E.verifyMessage message signature with
  | some signerAddr => toLowerCase signerAddr == toLowerCase address
  | none => false

/-- The number `Math.floor(Math.random() * 1000000)`: `Math.random()` lies in
`[0, 1)`, so the number is an integer from 0 to 999999. -/
abbrev RandomDraw := Fin 1000000

/-- The nonce `Math.floor(Math.random() * 1000000).toString()` (`server.js`,
line 67, and `generateNonce` of `koltech web/frontend/lib/web3.ts`). -/
def generateNonce (r : RandomDraw) : String := toString r.val

/-- A row of the table `users`: the columns the login code writes or reads. -/
structure User where
  wallet_address : String
  nonce : String
  last_login : Option Nat
  deriving DecidableEq

/-- The table `users`. -/
abbrev Users := List User

/-- Modelled from the spec: the declaration of the table `users` is not among
the sources.  The spec describes "a challenge table keyed by canonical address",
with "exactly one canonical form per account (lowercased hex, ...)" and "all
store keys and comparisons use the canonical form".  So two values of
`wallet_address` are the same key of the table when their lowercased forms are
equal. -/
def sameKey (a b : String) : Bool := toLowerCase a == toLowerCase b

/-- Modelled from the spec: with the key of the table `users` as in `sameKey`,
`INSERT OR REPLACE INTO users (wallet_address, nonce) VALUES (?, ?)` deletes the
rows with the same key and inserts the new row, which holds the address as it
was bound and the defaults in its other columns. -/
def insertOrReplace (db : Users) (address nonce : String) : Users :=
  db.filter (fun u => !sameKey u.wallet_address address) ++ [⟨address, nonce, none⟩]

/-- Modelled from the spec: the row, if any, returned by
`db.get('SELECT nonce FROM users WHERE wallet_address = ?', [address])`, the
comparison being the one of the table's key (`sameKey`). -/
def selectNonce (db : Users) (address : String) : Option String :=
  (db.find? (fun u => sameKey u.wallet_address address)).map (fun u => u.nonce)

/-- Modelled from the spec: the effect of
`UPDATE users SET last_login = CURRENT_TIMESTAMP WHERE wallet_address = ?`, the
comparison being the one of the table's key (`sameKey`). -/
def updateLastLogin (db : Users) (address : String) (now : Nat) : Users :=
  db.map (fun u =>
    if sameKey u.wallet_address address then { u with last_login := some now } else u)

/-- The payload of the token made by
`jwt.sign({ address }, JWT_SECRET, { expiresIn: '24h' })`, in seconds. -/
structure Token where
  address : String
  iat : Nat
  exp : Nat
  deriving DecidableEq

/-- The token for `{ address }` issued at time `now` and expiring 24 hours
later. -/
def signedToken (address : String) (now : Nat) : Token := ⟨address, now, now + 24 * 60 * 60⟩

/-- The call `jwt.sign({ address }, process.env.JWT_SECRET, { expiresIn: '24h' })`
at time `now`: the token, or `none` when the call throws, which it does when
the secret is not set or is the empty string. -/
def jwtSign (secret : Option String) (address : String) (now : Nat) : Option Token :=
  if truthy secret then some (signedToken address now) else none

/-- The response of a login request. -/
inductive AuthResponse where
  | nonce (nonce : String)
  | token (token : Token)
  | error (status : Nat) (message : String)
  deriving DecidableEq

/-- The handler `app.post('/api/auth/nonce')` (`server.js`, lines 61-78):
the response and the table afterwards.  `dbFails` says whether the insert
statement reports an error. -/
def authNonce (E : ServerEnv) (db : Users) (address : String) (r : RandomDraw)
    (dbFails : Bool) : AuthResponse × Users :=
  if !E.isAddress address then (.error 400 "Invalid wallet address", db)
  else
    let nonce := generateNonce r
    if dbFails then (.error 500 "Database error", db)
    else (.nonce nonce, insertOrReplace db address nonce)

/-- The callback given to `db.get` in `app.post('/api/auth/verify')`
(`server.js`, lines 89-113); `row` is the nonce of the selected row, `none`
when the statement failed or selected nothing, and `updateFails` says whether
the `last_login` update reports an error (which the code ignores).  The `catch`
branch answers 400 both when `ethers.verifyMessage` throws and when `jwt.sign`
throws; in the second case the update has not run. -/
def verifyCallback (E : ServerEnv) (db : Users) (now : Nat) (address signature : String)
    (row : Option String) (updateFails : Bool) : AuthResponse × Users :=
  match row with
  | none => (.error 400 "Invalid request", db)
  | some nonce =>
    match E.verifyMessage (message nonce) signature with
    | none => (.error 400 "Signature verification failed", db)
    | some recoveredAddress =>
      if toLowerCase recoveredAddress == toLowerCase address then
        match jwtSign E.jwtSecret address now with
        | none => (.error 400 "Signature verification failed", db)
        | some token =>
          (.token token, if updateFails then db else updateLastLogin db address now)
      else (.error 401 "Invalid signature", db)

/-- The handler `app.post('/api/auth/verify')` (`server.js`, lines 80-115).
`getFails` says whether the select statement reports an error. -/
def authVerify (E : ServerEnv) (db : Users) (now : Nat) (address signature : String)
    (getFails updateFails : Bool) : AuthResponse × Users :=
  if !E.isAddress address then (.error 400 "Invalid wallet address", db)
  else
    verifyCallback E db now address signature
      (if getFails then none else selectNonce db address) updateFails

/-- A login request as it reaches the server. -/
inductive AuthRequest where
  | nonce (address : String) (r : RandomDraw) (dbFails : Bool)
  | verify (address signature : String) (getFails updateFails : Bool)

/-- Handle one request received at time `now` (seconds). -/
def handle (E : ServerEnv) (db : Users) (now : Nat) : AuthRequest → AuthResponse × Users
  | .nonce address r dbFails => authNonce E db address r dbFails
  | .verify address signature getFails updateFails =>
    authVerify E db now address signature getFails updateFails

/-- Handle a sequence of timed requests in order: the responses and the final
table. -/
def run (E : ServerEnv) (db : Users) : List (Nat × AuthRequest) → List AuthResponse × Users
  | [] => ([], db)
  | (now, req) :: rest =>
    let (resp, db1) := handle E db now req
    let (resps, db2) := run E db1 rest
    (resp :: resps, db2)

/-- The tables the server can be in: it starts with no user and changes only
by handling requests. -/
inductive Reachable (E : ServerEnv) : Users → Prop where
  | init : Reachable E []
  | step {db : Users} (now : Nat) (req : AuthRequest) :
      Reachable E db → Reachable E (handle E db now req).2

/-! ## Validation and sanitising (`utils/validate.js` of both backends) -/

namespace JSNumber

/-- The test `isNaN(x)` on a number. -/
def isNaN : JSNumber → Bool
  | nan => true
  | _ => false

/-- The operator `<` on numbers; `x > y` is `lt y x`. -/
def lt : JSNumber → JSNumber → Bool
  | nan, _ => false
  | _, nan => false
  | inf a, inf b => a && !b
  | inf a, fin _ => a
  | fin _, inf b => !b
  | fin x, fin y => decide (x < y)

end JSNumber

/-- The runtime functions `validateAirdrop` calls. -/
structure ValidationRuntime where
  /-- `parseInt(value)`. -/
  parseInt : String → JSNumber
  /-- Whether `new URL(value)` returns rather than throws. -/
  urlParses : String → Bool
  /-- `new Date(value).getTime()` in milliseconds, `none` when it is `NaN`
  (an invalid date). -/
  dateTime : String → Option ℤ

/-- The fields of the object given to `validateAirdrop` that it reads: each is
absent or a string. -/
structure AirdropData where
  project_name : Option String
  chain : Option String
  status : Option String
  risk_score : Option String
  official_url : Option String
  start_date : Option String
  end_date : Option String
  deriving DecidableEq

/-- The object returned by `validateAirdrop`. -/
structure Validation where
  isValid : Bool
  errors : List String
  deriving DecidableEq

/-- The comparison `start > end` of two `Date` objects: a comparison of their
time values, false when either is `NaN`. -/
def dateAfter : Option ℤ → Option ℤ → Bool
  | some a, some b => decide (b < a)
  | _, _ => false

/-- Replace every occurrence of the character `c` by `rep`: the call
`.replace(/c/g, rep)` for a one-character pattern. -/
def replaceAll (c : Char) (rep : String) (s : List Char) : List Char :=
  s.flatMap (fun x => if x = c then rep.toList else [x])

/-- The scan behind `.replace(/<[^>]*>/g, '')`.  Outside a match (`false`), a
`<` that has a `>` somewhere after it starts a match, which runs to the first
`>` and is dropped with it; a `<` with no `>` after it, and any other
character, is kept.  Inside a match (`true`) characters are dropped up to and
including the first `>`. -/
def removeTagsAux : Bool → List Char → List Char
  | _, [] => []
  | false, c :: cs =>
    if c = '<' ∧ '>' ∈ cs then removeTagsAux true cs else c :: removeTagsAux false cs
  | true, c :: cs => if c = '>' then removeTagsAux false cs else removeTagsAux true cs

/-- The call `.replace(/<[^>]*>/g, '')` on the characters of a string. -/
def removeTags (s : List Char) : List Char := removeTagsAux false s

/-- Where a match of `<[^>]*>` that has read its `<` ends: the text after the
first `>`, if there is one. -/
def tagEnd : List Char → Option (List Char)
  | [] => none
  | c :: cs => if c = '>' then some cs else tagEnd cs

/-- The combined effect on one character of the five replacements of
`sanitizeInput`, as shown by `escape_eq_flatMap`. -/
def escapeChar (x : Char) : List Char :=
  if x = '&' then "&amp;".toList
  else if x = '<' then "&lt;".toList
  else if x = '>' then "&gt;".toList
  else if x = '"' then "&quot;".toList
  else if x = Char.ofNat 39 then "&#039;".toList
  else [x]

namespace Koltech

/-- The function `validateAirdrop` of `koltech web/backend/utils/validate.js`
(lines 1-54). -/
def validateAirdrop (R : ValidationRuntime) (data : AirdropData) : Validation :=
  let errors : List String := []
  let errors := errors ++ (if truthy data.project_name then [] else ["project_name is required"])
  let errors := errors ++ (if truthy data.chain then [] else ["chain is required"])
  let errors := errors ++ (if truthy data.status then [] else ["status is required"])
  let errors := errors ++
    (match data.status with
     | some s =>
       if s != "" && !(["open", "closed", "upcoming"].contains s) then ["Invalid status value"]
       else []
     | none => [])
  let errors := errors ++
    (match data.risk_score with
     | some v =>
       let score := R.parseInt v
       if score.isNaN || score.lt (.fin 1) || (JSNumber.fin 10).lt score then
         ["Risk score must be between 1 and 10"]
       else []
     | none => [])
  let errors := errors ++
    (match data.official_url with
     | some u => if u != "" && !R.urlParses u then ["Invalid official URL format"] else []
     | none => [])
  let errors := errors ++
    (if truthy data.start_date && truthy data.end_date then
      let start := (data.start_date.map R.dateTime).join
      let finish := (data.end_date.map R.dateTime).join
      (if start.isNone then ["Invalid start date format"] else [])
        ++ (if finish.isNone then ["Invalid end date format"] else [])
        ++ (if dateAfter start finish then ["End date must be after start date"] else [])
     else [])
  ⟨errors.isEmpty, errors⟩

/-- The function `sanitizeInput` of `koltech web/backend/utils/validate.js`
(lines 56-71); the input is a string or a value of another type. -/
def sanitizeInput {α : Type} : String ⊕ α → String ⊕ α
  | .inr x => .inr x
  | .inl input =>
    let input := removeTags input.toList
    let input :=
      replaceAll (Char.ofNat 39) "&#039;"
        (replaceAll '"' "&quot;"
          (replaceAll '>' "&gt;" (replaceAll '<' "&lt;" (replaceAll '&' "&amp;" input))))
    .inl (String.mk input)

end Koltech

namespace AirdropDiscovery

namespace sanitize

/-- The function `sanitize.stripHtml` of
`airdrop-discovery/backend/utils/validate.js` (lines 127-130); the input is a
string or a value of another type. -/
def stripHtml {α : Type} : String ⊕ α → String ⊕ α
  | .inr x => .inr x
  | .inl value => .inl (String.mk (removeTags value.toList))

end sanitize

end AirdropDiscovery

/-! ## Sample runtime values, for evaluating the handlers -/

/-- Value of a string of decimal digits. -/
def digitsToNat : List Char → Nat → Option Nat
  | [], acc => some acc
  | c :: cs, acc => if c.isDigit then digitsToNat cs (acc * 10 + (c.toNat - 48)) else none

/-- A string-to-number conversion that reads decimal integer literals as the
runtime does (the double nearest to the integer) and yields `NaN` on any other
string. -/
def decimalToNumber (s : String) : JSNumber :=
  match s.toList with
  | [] => .nan
  | '-' :: c :: cs =>
    match digitsToNat (c :: cs) 0 with
    | some n => JSNumber.roundDouble (-(n : ℚ))
    | none => .nan
  | c :: cs =>
    match digitsToNat (c :: cs) 0 with
    | some n => JSNumber.roundDouble n
    | none => .nan

/-- A checksummed account address. -/
def aliceAddress : String := "0xd8dA6BF26964aF9D7eEd9e03E53415D37aA96045"

/-- Another checksummed account address. -/
def bobAddress : String := "0x5B38Da6a701c568545dCfcB03FcB875f56beddC4"

/-- An instance of `Ethers` with two accounts.  An address is accepted in its
checksummed or its all-lowercase spelling; the signature of an account over a
message is spelled with the account's name around the message. -/
def sampleEthers : Ethers where
  isAddress s :=
    s == aliceAddress || s == toLowerCase aliceAddress ||
      s == bobAddress || s == toLowerCase bobAddress
  verifyMessage msg signature :=
    if signature == "alice(" ++ msg ++ ")" then some aliceAddress
    else if signature == "bob(" ++ msg ++ ")" then some bobAddress
    else none


/-- The sample library with `JWT_SECRET` set. -/
def sampleServer : ServerEnv := { sampleEthers with jwtSecret := some "sample-secret" }

/-- The sample library with `JWT_SECRET` not set. -/
def sampleServerNoSecret : ServerEnv := { sampleEthers with jwtSecret := none }

/-- A `ValidationRuntime` for examples: decimal integers for `parseInt`, the
two usual schemes for URLs, and two calendar dates with their time values. -/
def sampleValidation : ValidationRuntime where
  parseInt := decimalToNumber
  urlParses s := "https://".toList.isPrefixOf s.toList || "http://".toList.isPrefixOf s.toList
  dateTime s :=
    if s == "2024-01-01" then some 1704067200000
    else if s == "2024-06-01" then some 1717200000000
    else none

/-! ## Theorems: numbers -/

theorem roundHalfEven_intCast (m : ℤ) : JSNumber.roundHalfEven (m : ℚ) = m := by
  simp [JSNumber.roundHalfEven]

/-- An integer of magnitude below `2 ^ 53` is a double: rounding leaves it as
it is. -/
theorem roundDouble_intCast (n : ℤ) (h : |n| < 2 ^ 53) :
    JSNumber.roundDouble (n : ℚ) = JSNumber.fin n := by
  by_cases hn : n = 0
  · subst hn; simp [JSNumber.roundDouble]
  have hq : (n : ℚ) ≠ 0 := by exact_mod_cast hn
  have ha_pos : (0 : ℚ) < |(n : ℚ)| := abs_pos.2 hq
  have ha1 : (1 : ℚ) ≤ |(n : ℚ)| := by
    have : (1 : ℤ) ≤ |n| := Int.one_le_abs hn
    exact_mod_cast this
  have ha53 : |(n : ℚ)| < 2 ^ 53 := by exact_mod_cast h
  have he0 : 0 ≤ Int.log 2 |(n : ℚ)| :=
    (Int.zpow_le_iff_le_log (b := 2) (by norm_num) (x := 0) ha_pos).1 (by simpa using ha1)
  have he53 : Int.log 2 |(n : ℚ)| < 53 :=
    (Int.lt_zpow_iff_log_lt (b := 2) (by norm_num) (x := 53) ha_pos).1
      (by rw [show ((53 : ℤ)) = ((53 : ℕ) : ℤ) from rfl, zpow_natCast]; exact_mod_cast ha53)
  obtain ⟨k, hk⟩ : ∃ k : ℕ, Int.log 2 |(n : ℚ)| - 52 = -(k : ℤ) :=
    ⟨(52 - Int.log 2 |(n : ℚ)|).toNat, by omega⟩
  have hmax : max (Int.log 2 |(n : ℚ)|) (-1022) = Int.log 2 |(n : ℚ)| :=
    max_eq_left (by omega)
  have hulp : (2 : ℚ) ^ (Int.log 2 |(n : ℚ)| - 52) = ((2 : ℚ) ^ k)⁻¹ := by
    rw [hk, zpow_neg, zpow_natCast]
  have hdiv : |(n : ℚ)| / ((2 : ℚ) ^ k)⁻¹ = ((|n| * 2 ^ k : ℤ) : ℚ) := by
    push_cast
    rw [div_inv_eq_mul]
  have hr : (((|n| * 2 ^ k : ℤ) : ℚ)) * ((2 : ℚ) ^ k)⁻¹ = |(n : ℚ)| := by
    push_cast
    field_simp
  simp only [JSNumber.roundDouble, hq, if_false, hmax, hulp, hdiv, roundHalfEven_intCast, hr]
  have hnot : ¬ ((2 : ℚ) ^ 1024 ≤ |(n : ℚ)|) := by
    intro hle
    have : (2 : ℚ) ^ 53 ≤ 2 ^ 1024 := by norm_num
    linarith
  rw [if_neg hnot]
  congr 1
  by_cases hneg : (n : ℚ) < 0
  · rw [if_pos hneg, abs_of_neg hneg, neg_neg]
  · rw [if_neg hneg, abs_of_nonneg (not_lt.1 hneg)]

/-- The square of 94906267 is not a double: it is rounded to the even
neighbour below it. -/
theorem roundDouble_above_safe :
    JSNumber.roundDouble (9007199515875289 : ℚ) = JSNumber.fin 9007199515875288 := by
  have hlog : Int.log 2 |(9007199515875289 : ℚ)| = 53 := by
    rw [abs_of_pos (by norm_num)]
    have h := Int.log_natCast (R := ℚ) 2 9007199515875289
    have hn : Nat.log 2 9007199515875289 = 53 :=
      Nat.log_eq_of_pow_le_of_lt_pow (by norm_num) (by norm_num)
    rw [hn] at h
    exact_mod_cast h
  have hfloor : ⌊(9007199515875289 : ℚ) / 2⌋ = 4503599757937644 := by
    rw [Int.floor_eq_iff]
    constructor <;> norm_num
  have hround : JSNumber.roundHalfEven ((9007199515875289 : ℚ) / 2) = 4503599757937644 := by
    simp only [JSNumber.roundHalfEven, hfloor]
    norm_num
  have habs : |(9007199515875289 : ℚ)| = 9007199515875289 := abs_of_pos (by norm_num)
  simp only [JSNumber.roundDouble, hlog]
  norm_num [hround, habs]

theorem sub_ofInt (a b : ℤ) (h : |a - b| < 2 ^ 53) :
    (JSNumber.ofInt a).sub (JSNumber.ofInt b) = JSNumber.ofInt (a - b) := by
  have := roundDouble_intCast (a - b) h
  simp only [JSNumber.ofInt, JSNumber.sub]
  rw [← this]
  push_cast
  rfl

theorem mul_ofInt (a b : ℤ) (h : |a * b| < 2 ^ 53) :
    (JSNumber.ofInt a).mul (JSNumber.ofInt b) = JSNumber.ofInt (a * b) := by
  have := roundDouble_intCast (a * b) h
  simp only [JSNumber.ofInt, JSNumber.mul]
  rw [← this]
  push_cast
  rfl

theorem decimalToNumber_small (s : String) (n : ℕ) (c : Char) (cs : List Char)
    (hs : s.toList = c :: cs) (hc : c ≠ '-') (hd : digitsToNat (c :: cs) 0 = some n)
    (hn : n < 2 ^ 53) : decimalToNumber s = JSNumber.ofInt n := by
  have hr := roundDouble_intCast (n : ℤ) (by
    rw [abs_of_nonneg (Int.natCast_nonneg n)]; exact_mod_cast hn)
  unfold decimalToNumber
  rw [hs]
  split
  · rename_i heq; cases heq
  · rename_i c2 c3 cs3 heq
    simp only [List.cons.injEq] at heq
    exact absurd heq.1 hc
  · rename_i c2 cs2 _ heq
    simp only [List.cons.injEq] at heq
    obtain ⟨rfl, rfl⟩ := heq
    rw [hd]
    simp only [JSNumber.ofInt]
    rw [← hr]
    push_cast
    rfl

/-! ## Theorems: the statement built for a listing request -/

theorem addFilter_query (st : Statement) (v : Option String) (clause : String)
    (bind : String → List JSValue) :
    (addFilter st v clause bind).query = st.query ++ (if truthy v then clause else "") := by
  cases v with
  | none => simp [addFilter, truthy]
  | some s =>
    by_cases h : s = ""
    · simp [addFilter, truthy, h]
    · simp [addFilter, truthy, h]

theorem addFilter_params (st : Statement) (v : Option String) (clause : String)
    (bind : String → List JSValue) :
    (addFilter st v clause bind).params = st.params ++ (populatedValue v).flatMap bind := by
  cases v with
  | none => simp [addFilter, populatedValue]
  | some s =>
    by_cases h : s = ""
    · simp [addFilter, populatedValue, h]
    · simp [addFilter, populatedValue, h]

theorem mem_populatedValue {v : Option String} {s : String} (h : v = some s) (hs : s ≠ "") :
    s ∈ populatedValue v := by
  subst h
  simp [populatedValue, hs]

theorem discovery_buildListQuery_query (toNum : String → JSNumber) (q : ListRequest) :
    (AirdropDiscovery.buildListQuery toNum q).query =
      "SELECT * FROM airdrops WHERE 1=1" ++ (if truthy q.chain then " AND chain = ?" else "")
        ++ (if truthy q.status then " AND status = ?" else "")
        ++ (if truthy q.search then " AND (project_name LIKE ? OR description LIKE ?)" else "")
        ++ " ORDER BY created_at DESC LIMIT ? OFFSET ?" := by
  simp only [AirdropDiscovery.buildListQuery, Koltech.buildListQuery, addFilter_query]

theorem koltech_buildListQuery_query (toNum : String → JSNumber) (q : ListRequest) :
    (Koltech.buildListQuery toNum q).query =
      "SELECT * FROM airdrops WHERE 1=1" ++ (if truthy q.chain then " AND chain = ?" else "")
        ++ (if truthy q.status then " AND status = ?" else "")
        ++ " ORDER BY created_at DESC LIMIT ? OFFSET ?" := by
  simp only [AirdropDiscovery.buildListQuery, Koltech.buildListQuery, addFilter_query]

theorem discovery_buildListQuery_params (toNum : String → JSNumber) (q : ListRequest) :
    (AirdropDiscovery.buildListQuery toNum q).params =
      (populatedValue q.chain).map JSValue.str ++ (populatedValue q.status).map JSValue.str
        ++ (populatedValue q.search).flatMap
            (fun s => [JSValue.str ("%" ++ s ++ "%"), JSValue.str ("%" ++ s ++ "%")])
        ++ [withDefault q.limit 10,
            JSValue.num (offsetOf toNum (withDefault q.page 1) (withDefault q.limit 10))] := by
  simp only [AirdropDiscovery.buildListQuery, Koltech.buildListQuery, addFilter_params,
    List.nil_append]
  congr 3 <;> induction populatedValue _ <;> simp_all [List.flatMap]

theorem koltech_buildListQuery_params (toNum : String → JSNumber) (q : ListRequest) :
    (Koltech.buildListQuery toNum q).params =
      (populatedValue q.chain).map JSValue.str ++ (populatedValue q.status).map JSValue.str
        ++ [withDefault q.limit 10,
            JSValue.num (offsetOf toNum (withDefault q.page 1) (withDefault q.limit 10))] := by
  simp only [AirdropDiscovery.buildListQuery, Koltech.buildListQuery, addFilter_params,
    List.nil_append]
  congr 2 <;> induction populatedValue _ <;> simp_all [List.flatMap]

/-- Claim C1: two listing requests that populate the same subset of the filters
`chain`, `status` and `search` get the same template text, whatever the values
of the filters, of `page` and of `limit` are and however the runtime reads them
as numbers; the values themselves are passed in the array of bound parameters
(a populated `chain` and `status` as they are, a populated `search` between
wildcard marks, `limit` as it is and `page` through the offset).  The template
is assembled from constant fragments chosen by which filters are populated.
This holds for the handlers of both backends. -/
theorem listQuery_template_ignores_values (toNum toNum2 : String → JSNumber)
    (q q2 : ListRequest)
    (hchain : truthy q.chain = truthy q2.chain)
    (hstatus : truthy q.status = truthy q2.status)
    (hsearch : truthy q.search = truthy q2.search) :
    (AirdropDiscovery.buildListQuery toNum q).query
        = (AirdropDiscovery.buildListQuery toNum2 q2).query
      ∧ (Koltech.buildListQuery toNum q).query = (Koltech.buildListQuery toNum2 q2).query
      ∧ (∀ c, q.chain = some c → c ≠ "" →
          JSValue.str c ∈ (AirdropDiscovery.buildListQuery toNum q).params
            ∧ JSValue.str c ∈ (Koltech.buildListQuery toNum q).params)
      ∧ (∀ s, q.status = some s → s ≠ "" →
          JSValue.str s ∈ (AirdropDiscovery.buildListQuery toNum q).params
            ∧ JSValue.str s ∈ (Koltech.buildListQuery toNum q).params)
      ∧ (∀ s, q.search = some s → s ≠ "" →
          JSValue.str ("%" ++ s ++ "%") ∈ (AirdropDiscovery.buildListQuery toNum q).params)
      ∧ withDefault q.limit 10 ∈ (AirdropDiscovery.buildListQuery toNum q).params
      ∧ withDefault q.limit 10 ∈ (Koltech.buildListQuery toNum q).params
      ∧ JSValue.num (offsetOf toNum (withDefault q.page 1) (withDefault q.limit 10))
          ∈ (AirdropDiscovery.buildListQuery toNum q).params
      ∧ JSValue.num (offsetOf toNum (withDefault q.page 1) (withDefault q.limit 10))
          ∈ (Koltech.buildListQuery toNum q).params
      ∧ (AirdropDiscovery.buildListQuery toNum q).query =
          "SELECT * FROM airdrops WHERE 1=1"
            ++ (if truthy q.chain then " AND chain = ?" else "")
            ++ (if truthy q.status then " AND status = ?" else "")
            ++ (if truthy q.search then " AND (project_name LIKE ? OR description LIKE ?)"
                else "")
            ++ " ORDER BY created_at DESC LIMIT ? OFFSET ?"
      ∧ (Koltech.buildListQuery toNum q).query =
          "SELECT * FROM airdrops WHERE 1=1"
            ++ (if truthy q.chain then " AND chain = ?" else "")
            ++ (if truthy q.status then " AND status = ?" else "")
            ++ " ORDER BY created_at DESC LIMIT ? OFFSET ?" := by
  refine ⟨?_, ?_, ?_, ?_, ?_, ?_, ?_, ?_, ?_, discovery_buildListQuery_query toNum q,
    koltech_buildListQuery_query toNum q⟩
  · simp only [discovery_buildListQuery_query, hchain, hstatus, hsearch]
  · simp only [koltech_buildListQuery_query, hchain, hstatus]
  · intro c hc hne
    have := mem_populatedValue hc hne
    constructor
    · rw [discovery_buildListQuery_params]
      simp only [List.mem_append, List.mem_map]
      exact Or.inl (Or.inl (Or.inl ⟨c, this, rfl⟩))
    · rw [koltech_buildListQuery_params]
      simp only [List.mem_append, List.mem_map]
      exact Or.inl (Or.inl ⟨c, this, rfl⟩)
  · intro s hs hne
    have := mem_populatedValue hs hne
    constructor
    · rw [discovery_buildListQuery_params]
      simp only [List.mem_append, List.mem_map]
      exact Or.inl (Or.inl (Or.inr ⟨s, this, rfl⟩))
    · rw [koltech_buildListQuery_params]
      simp only [List.mem_append, List.mem_map]
      exact Or.inl (Or.inr ⟨s, this, rfl⟩)
  · intro s hs hne
    have := mem_populatedValue hs hne
    rw [discovery_buildListQuery_params]
    simp only [List.mem_append, List.mem_flatMap]
    exact Or.inl (Or.inr ⟨s, this, by simp⟩)
  · rw [discovery_buildListQuery_params]; simp
  · rw [koltech_buildListQuery_params]; simp
  · rw [discovery_buildListQuery_params]; simp
  · rw [koltech_buildListQuery_params]; simp

/-- Witness of C1: a request with hostile filter, page and limit values and a
harmless request populating the same filters get the same template. -/
theorem listQuery_template_ignores_values_witness :
    (AirdropDiscovery.buildListQuery decimalToNumber
        ⟨some "x'; DROP TABLE airdrops; --", none, some "%' OR '1'='1", some "1 OR 1=1",
          some "10; DELETE FROM users"⟩).query
      = (AirdropDiscovery.buildListQuery (fun _ => JSNumber.nan)
        ⟨some "Ethereum", some "", some "drop", none, some "20"⟩).query :=
  (listQuery_template_ignores_values decimalToNumber (fun _ => JSNumber.nan)
    ⟨some "x'; DROP TABLE airdrops; --", none, some "%' OR '1'='1", some "1 OR 1=1",
      some "10; DELETE FROM users"⟩
    ⟨some "Ethereum", some "", some "drop", none, some "20"⟩
    (by decide) (by decide) (by decide)).1


theorem offsetOf_of_integers (toNum : String → JSNumber) (page limit : JSValue) (p l : ℤ)
    (hp : page.toNumber toNum = JSNumber.ofInt p) (hl : limit.toNumber toNum = JSNumber.ofInt l)
    (hsub : |p - 1| < 2 ^ 53) (hmul : |(p - 1) * l| < 2 ^ 53) :
    offsetOf toNum page limit = JSNumber.ofInt ((p - 1) * l) := by
  have h1 : (JSNumber.fin 1 : JSNumber) = JSNumber.ofInt 1 := by simp [JSNumber.ofInt]
  simp only [offsetOf, hp, hl, h1]
  rw [sub_ofInt p 1 hsub, mul_ofInt (p - 1) l hmul]

theorem toNumber_withDefault (toNum : String → JSNumber) (v : Option String) (d n : ℤ)
    (h : v.elim (n = d) (fun s => toNum s = JSNumber.ofInt n)) :
    (withDefault v d).toNumber toNum = JSNumber.ofInt n := by
  cases v with
  | none =>
    simp only [Option.elim] at h
    subst h
    simp [withDefault, JSValue.toNumber, JSNumber.ofInt]
  | some s => simpa [withDefault, JSValue.toNumber] using h

theorem withDefault_eq_elim (v : Option String) (d : ℚ) :
    withDefault v d = v.elim (JSValue.num (JSNumber.fin d)) JSValue.str := by
  cases v <;> rfl

theorem offsetOf_of_strings (toNum : String → JSNumber) (a b : String) :
    offsetOf toNum (withDefault (some a) 1) (withDefault (some b) 10)
      = ((toNum a).sub (JSNumber.fin 1)).mul (toNum b) := rfl

theorem params_of_page_and_limit (toNum : String → JSNumber) (a b : String) :
    (AirdropDiscovery.buildListQuery toNum ⟨none, none, none, some a, some b⟩).params
        = [JSValue.str b, JSValue.num (((toNum a).sub (JSNumber.fin 1)).mul (toNum b))]
      ∧ (Koltech.buildListQuery toNum ⟨none, none, none, some a, some b⟩).params
        = [JSValue.str b, JSValue.num (((toNum a).sub (JSNumber.fin 1)).mul (toNum b))] :=
  ⟨rfl, rfl⟩

/-- Counterexample to C7: for page 94906268 and limit 94906267 both handlers
bind the offset 9007199515875288, while `(page - 1) * limit` is
9007199515875289: the product is computed in double arithmetic, which rounds
it. -/
theorem listQuery_offset_is_rounded :
    (AirdropDiscovery.buildListQuery decimalToNumber
        ⟨none, none, none, some "94906268", some "94906267"⟩).params
      = [JSValue.str "94906267", JSValue.num (JSNumber.ofInt 9007199515875288)]
    ∧ (Koltech.buildListQuery decimalToNumber
        ⟨none, none, none, some "94906268", some "94906267"⟩).params
      = [JSValue.str "94906267", JSValue.num (JSNumber.ofInt 9007199515875288)]
    ∧ ((94906268 : ℤ) - 1) * 94906267 = 9007199515875289 := by
  have hp : decimalToNumber "94906268" = JSNumber.ofInt (94906268 : ℕ) :=
    decimalToNumber_small "94906268" 94906268 '9' "4906268".toList rfl (by decide)
      (by decide) (by norm_num)
  have hl : decimalToNumber "94906267" = JSNumber.ofInt (94906267 : ℕ) :=
    decimalToNumber_small "94906267" 94906267 '9' "4906267".toList rfl (by decide)
      (by decide) (by norm_num)
  have hsub : (JSNumber.ofInt (94906268 : ℕ)).sub (JSNumber.fin 1) = JSNumber.ofInt 94906267 := by
    have h1 : (JSNumber.fin 1 : JSNumber) = JSNumber.ofInt 1 := by simp [JSNumber.ofInt]
    rw [h1, sub_ofInt _ 1 (by norm_num)]
    norm_num
  have hmul : (JSNumber.ofInt 94906267).mul (JSNumber.ofInt (94906267 : ℕ))
      = JSNumber.ofInt 9007199515875288 := by
    simp only [JSNumber.ofInt, JSNumber.mul]
    have := roundDouble_above_safe
    norm_num at this ⊢
    exact this
  have hoff : ((decimalToNumber "94906268").sub (JSNumber.fin 1)).mul
      (decimalToNumber "94906267") = JSNumber.ofInt 9007199515875288 := by
    rw [hp, hl, hsub, hmul]
  have hpar := params_of_page_and_limit decimalToNumber "94906268" "94906267"
  rw [hoff] at hpar
  exact ⟨hpar.1, hpar.2, by norm_num⟩

/-- Claim C7 as amended: when `page` and `limit` denote the integers `p` and
`l` (`page` is 1 and `limit` is 10 when absent) and `p - 1` and `(p - 1) * l`
are below `2 ^ 53` in magnitude, the last two bound parameters of the listing
statement of either backend are the limit value as received and then the
offset, and the offset is `(p - 1) * l`; so the offset of page 1 is 0, and a
request for page `p + 1` with the same limit, within the same range, has an
offset larger by exactly `l`. -/
theorem listQuery_limit_and_offset (toNum : String → JSNumber) (q : ListRequest) (p l : ℤ)
    (hp : q.page.elim (p = 1) (fun s => toNum s = JSNumber.ofInt p))
    (hl : q.limit.elim (l = 10) (fun s => toNum s = JSNumber.ofInt l))
    (hsub : |p - 1| < 2 ^ 53) (hmul : |(p - 1) * l| < 2 ^ 53) :
    [q.limit.elim (JSValue.num (JSNumber.fin 10)) JSValue.str,
        JSValue.num (JSNumber.ofInt ((p - 1) * l))]
        <:+ (AirdropDiscovery.buildListQuery toNum q).params
      ∧ [q.limit.elim (JSValue.num (JSNumber.fin 10)) JSValue.str,
          JSValue.num (JSNumber.ofInt ((p - 1) * l))]
        <:+ (Koltech.buildListQuery toNum q).params
      ∧ (p = 1 →
          [q.limit.elim (JSValue.num (JSNumber.fin 10)) JSValue.str,
              JSValue.num (JSNumber.ofInt 0)]
              <:+ (AirdropDiscovery.buildListQuery toNum q).params
            ∧ [q.limit.elim (JSValue.num (JSNumber.fin 10)) JSValue.str,
                JSValue.num (JSNumber.ofInt 0)]
              <:+ (Koltech.buildListQuery toNum q).params)
      ∧ (∀ q2 : ListRequest, q2.limit = q.limit →
          q2.page.elim (p + 1 = 1) (fun s => toNum s = JSNumber.ofInt (p + 1)) →
          |p| < 2 ^ 53 → |p * l| < 2 ^ 53 →
          [q.limit.elim (JSValue.num (JSNumber.fin 10)) JSValue.str,
              JSValue.num (JSNumber.ofInt ((p - 1) * l + l))]
              <:+ (AirdropDiscovery.buildListQuery toNum q2).params
            ∧ [q.limit.elim (JSValue.num (JSNumber.fin 10)) JSValue.str,
                JSValue.num (JSNumber.ofInt ((p - 1) * l + l))]
              <:+ (Koltech.buildListQuery toNum q2).params) := by
  have hp2 : (withDefault q.page 1).toNumber toNum = JSNumber.ofInt p := by
    simpa using toNumber_withDefault toNum q.page 1 p hp
  have hl2 : (withDefault q.limit 10).toNumber toNum = JSNumber.ofInt l := by
    simpa using toNumber_withDefault toNum q.limit 10 l hl
  have hoff := offsetOf_of_integers toNum _ _ p l hp2 hl2 hsub hmul
  have hlim := withDefault_eq_elim q.limit 10
  have h1 : [q.limit.elim (JSValue.num (JSNumber.fin 10)) JSValue.str,
        JSValue.num (JSNumber.ofInt ((p - 1) * l))]
        <:+ (AirdropDiscovery.buildListQuery toNum q).params := by
    rw [discovery_buildListQuery_params, hoff, ← hlim]
    exact List.suffix_append _ _
  have h2 : [q.limit.elim (JSValue.num (JSNumber.fin 10)) JSValue.str,
        JSValue.num (JSNumber.ofInt ((p - 1) * l))]
        <:+ (Koltech.buildListQuery toNum q).params := by
    rw [koltech_buildListQuery_params, hoff, ← hlim]
    exact List.suffix_append _ _
  refine ⟨h1, h2, ?_, ?_⟩
  · intro hp1
    have h0 : (p - 1) * l = 0 := by rw [hp1]; ring
    rw [h0] at h1 h2
    exact ⟨h1, h2⟩
  · intro q2 hq2 hpage habs hprod
    have hp3 : (withDefault q2.page 1).toNumber toNum = JSNumber.ofInt (p + 1) := by
      simpa using toNumber_withDefault toNum q2.page 1 (p + 1) hpage
    have hl3 : (withDefault q2.limit 10).toNumber toNum = JSNumber.ofInt l := by
      rw [hq2]; exact hl2
    have he : (p + 1 - 1) * l = (p - 1) * l + l := by ring
    have hoff2 := offsetOf_of_integers toNum _ _ (p + 1) l hp3 hl3
      (by rw [show p + 1 - 1 = p by ring]; exact habs)
      (by rw [show (p + 1 - 1) * l = p * l by ring]; exact hprod)
    rw [he] at hoff2
    constructor
    · rw [discovery_buildListQuery_params, hoff2, hq2, ← hlim]
      exact List.suffix_append _ _
    · rw [koltech_buildListQuery_params, hoff2, hq2, ← hlim]
      exact List.suffix_append _ _

/-- Witness of the amended C7: page 3 with 20 rows per page binds limit "20"
and offset 40. -/
theorem listQuery_limit_and_offset_witness :
    [JSValue.str "20", JSValue.num (JSNumber.ofInt ((3 - 1) * 20))]
      <:+ (AirdropDiscovery.buildListQuery decimalToNumber
            ⟨some "Ethereum", none, none, some "3", some "20"⟩).params :=
  (listQuery_limit_and_offset decimalToNumber
    ⟨some "Ethereum", none, none, some "3", some "20"⟩ 3 20
    (decimalToNumber_small "3" 3 '3' [] rfl (by decide) (by decide) (by norm_num))
    (decimalToNumber_small "20" 20 '2' ['0'] rfl (by decide) (by decide) (by norm_num))
    (by norm_num) (by norm_num)).1

/-- Claim C8: in the statement built by the `airdrop-discovery` handler the
number of `?` placeholders equals the number of bound parameters, and the
parameters come in the order of the placeholders: the `chain` value if
populated, the `status` value if populated, the `search` value between wildcard
marks twice if populated, then the limit (the value received, or 10), then the
offset (the product of the page, or 1, less one, and the limit, or 10). -/
theorem listQuery_placeholders_match_params (toNum : String → JSNumber) (q : ListRequest) :
    (AirdropDiscovery.buildListQuery toNum q).query.toList.count '?'
        = (AirdropDiscovery.buildListQuery toNum q).params.length
      ∧ (AirdropDiscovery.buildListQuery toNum q).params =
          (match q.chain with
            | some c => if c = "" then [] else [JSValue.str c]
            | none => [])
            ++ (match q.status with
                | some s => if s = "" then [] else [JSValue.str s]
                | none => [])
            ++ (match q.search with
                | some s =>
                  if s = "" then []
                  else [JSValue.str ("%" ++ s ++ "%"), JSValue.str ("%" ++ s ++ "%")]
                | none => [])
            ++ [match q.limit with
                | some l => JSValue.str l
                | none => JSValue.num (JSNumber.fin 10),
                JSValue.num
                  (((match q.page with
                      | some p => toNum p
                      | none => JSNumber.fin 1).sub (JSNumber.fin 1)).mul
                    (match q.limit with
                      | some l => toNum l
                      | none => JSNumber.fin 10))] := by
  constructor
  · rw [discovery_buildListQuery_params, discovery_buildListQuery_query]
    rcases q with ⟨chain, status, search, page, limit⟩
    have key : ∀ v : Option String,
        (populatedValue v).length = if truthy v then 1 else 0 := by
      intro v
      cases v with
      | none => simp [populatedValue, truthy]
      | some s => by_cases h : s = "" <;> simp [populatedValue, truthy, h]
    have key2 : ∀ (v : Option String) (f : String → List JSValue), (∀ s, (f s).length = 2) →
        ((populatedValue v).flatMap f).length = if truthy v then 2 else 0 := by
      intro v f hf
      cases v with
      | none => simp [populatedValue, truthy]
      | some s => by_cases h : s = "" <;> simp [populatedValue, truthy, h, hf]
    have hsearch := key2 search
      (fun s => [JSValue.str ("%" ++ s ++ "%"), JSValue.str ("%" ++ s ++ "%")]) (fun _ => rfl)
    simp only [List.length_append, List.length_map, key, hsearch, List.length_cons,
      List.length_nil]
    generalize truthy chain = a
    generalize truthy status = b
    generalize truthy search = c
    cases a <;> cases b <;> cases c <;> decide
  · rw [discovery_buildListQuery_params]
    have e1 : ∀ v : Option String, (populatedValue v).map JSValue.str
        = (match v with
            | some c => if c = "" then [] else [JSValue.str c]
            | none => []) := by
      intro v
      cases v with
      | none => rfl
      | some c => by_cases h : c = "" <;> simp [populatedValue, h]
    have e2 : (populatedValue q.search).flatMap
          (fun s => [JSValue.str ("%" ++ s ++ "%"), JSValue.str ("%" ++ s ++ "%")])
        = (match q.search with
            | some s =>
              if s = "" then []
              else [JSValue.str ("%" ++ s ++ "%"), JSValue.str ("%" ++ s ++ "%")]
            | none => []) := by
      cases q.search with
      | none => rfl
      | some c => by_cases h : c = "" <;> simp [populatedValue, h]
    have e3 : withDefault q.limit 10
        = (match q.limit with
            | some l => JSValue.str l
            | none => JSValue.num (JSNumber.fin 10)) := by
      cases q.limit <;> rfl
    have e4 : offsetOf toNum (withDefault q.page 1) (withDefault q.limit 10)
        = ((match q.page with
              | some p => toNum p
              | none => JSNumber.fin 1).sub (JSNumber.fin 1)).mul
            (match q.limit with
              | some l => toNum l
              | none => JSNumber.fin 10) := by
      cases q.page <;> cases q.limit <;> rfl
    rw [e4, e1, e1, e2, e3]

/-- Witness of C8: a request with all three filters, page 3 and limit 20 binds
the two filter values, the wrapped search value twice, the limit as received
and the offset 40, in this order. -/
theorem listQuery_placeholders_match_params_witness :
    (AirdropDiscovery.buildListQuery decimalToNumber
        ⟨some "Ethereum", some "active", some "drop", some "3", some "20"⟩).params
      = [JSValue.str "Ethereum", JSValue.str "active", JSValue.str "%drop%",
          JSValue.str "%drop%", JSValue.str "20", JSValue.num (JSNumber.ofInt 40)] := by
  have hall := (listQuery_placeholders_match_params decimalToNumber
    ⟨some "Ethereum", some "active", some "drop", some "3", some "20"⟩).2
  have hp : decimalToNumber "3" = JSNumber.ofInt (3 : ℕ) :=
    decimalToNumber_small "3" 3 '3' [] rfl (by decide) (by decide) (by norm_num)
  have hl : decimalToNumber "20" = JSNumber.ofInt (20 : ℕ) :=
    decimalToNumber_small "20" 20 '2' ['0'] rfl (by decide) (by decide) (by norm_num)
  have h1 : (JSNumber.fin 1 : JSNumber) = JSNumber.ofInt 1 := by simp [JSNumber.ofInt]
  have hsub : (JSNumber.ofInt (3 : ℕ)).sub (JSNumber.ofInt 1) = JSNumber.ofInt 2 := by
    rw [sub_ofInt _ 1 (by norm_num)]; norm_num
  have hmul : (JSNumber.ofInt 2).mul (JSNumber.ofInt (20 : ℕ)) = JSNumber.ofInt 40 := by
    rw [mul_ofInt _ _ (by norm_num)]; norm_num
  have hoff : ((decimalToNumber "3").sub (JSNumber.fin 1)).mul (decimalToNumber "20")
      = JSNumber.ofInt 40 := by
    rw [hp, hl, h1, hsub, hmul]
  simp only [hoff] at hall
  rw [hall]
  decide

/-! ## Theorems: the listing handlers -/

theorem sent_of_page_and_limit (toNum : String → JSNumber) (a b : String) :
    (AirdropDiscovery.listAirdrops toNum (fun _ => DbAll.rows ([] : List AirdropRow))
        ⟨none, none, none, some a, some b⟩).sent
      = [⟨"SELECT * FROM airdrops WHERE 1=1 ORDER BY created_at DESC LIMIT ? OFFSET ?",
          [JSValue.str b, JSValue.num (((toNum a).sub (JSNumber.fin 1)).mul (toNum b))]⟩]
    ∧ (Koltech.listAirdrops toNum (fun _ => DbAll.rows ([] : List AirdropRow))
        ⟨none, none, none, some a, some b⟩).sent
      = [⟨"SELECT * FROM airdrops WHERE 1=1 ORDER BY created_at DESC LIMIT ? OFFSET ?",
          [JSValue.str b, JSValue.num (((toNum a).sub (JSNumber.fin 1)).mul (toNum b))]⟩] :=
  ⟨by simp [AirdropDiscovery.listAirdrops, AirdropDiscovery.buildListQuery, addFilter,
      withDefault, offsetOf, JSValue.toNumber],
    by simp [Koltech.listAirdrops, Koltech.buildListQuery, addFilter,
      withDefault, offsetOf, JSValue.toNumber]⟩

/-- Counterexample to C6: a request for page 0 with a limit of one million is
not rejected; both handlers build the statement, with the limit as given and
the offset -1000000, pass it to the database and answer with its rows. -/
theorem listAirdrops_page_zero_is_queried :
    (AirdropDiscovery.listAirdrops decimalToNumber
        (fun _ => DbAll.rows ([] : List AirdropRow))
        ⟨none, none, none, some "0", some "1000000"⟩).sent
      = [⟨"SELECT * FROM airdrops WHERE 1=1 ORDER BY created_at DESC LIMIT ? OFFSET ?",
          [JSValue.str "1000000", JSValue.num (JSNumber.ofInt (-1000000))]⟩]
    ∧ (∃ rows, (AirdropDiscovery.listAirdrops decimalToNumber
        (fun _ => DbAll.rows ([] : List AirdropRow))
        ⟨none, none, none, some "0", some "1000000"⟩).response = ListResponse.json rows)
    ∧ (Koltech.listAirdrops decimalToNumber
        (fun _ => DbAll.rows ([] : List AirdropRow))
        ⟨none, none, none, some "0", some "1000000"⟩).sent
      = [⟨"SELECT * FROM airdrops WHERE 1=1 ORDER BY created_at DESC LIMIT ? OFFSET ?",
          [JSValue.str "1000000", JSValue.num (JSNumber.ofInt (-1000000))]⟩]
    ∧ (∃ rows, (Koltech.listAirdrops decimalToNumber
        (fun _ => DbAll.rows ([] : List AirdropRow))
        ⟨none, none, none, some "0", some "1000000"⟩).response = ListResponse.json rows) := by
  have hp : decimalToNumber "0" = JSNumber.ofInt (0 : ℕ) :=
    decimalToNumber_small "0" 0 '0' [] rfl (by decide) (by decide) (by norm_num)
  have hl : decimalToNumber "1000000" = JSNumber.ofInt (1000000 : ℕ) :=
    decimalToNumber_small "1000000" 1000000 '1' "000000".toList rfl (by decide) (by decide)
      (by norm_num)
  have h1 : (JSNumber.fin 1 : JSNumber) = JSNumber.ofInt 1 := by simp [JSNumber.ofInt]
  have hsub : (JSNumber.ofInt (0 : ℕ)).sub (JSNumber.ofInt 1) = JSNumber.ofInt (-1) := by
    rw [sub_ofInt _ 1 (by norm_num)]; norm_num
  have hmul : (JSNumber.ofInt (-1)).mul (JSNumber.ofInt (1000000 : ℕ))
      = JSNumber.ofInt (-1000000) := by
    rw [mul_ofInt _ _ (by norm_num)]; norm_num
  have hoff : ((decimalToNumber "0").sub (JSNumber.fin 1)).mul (decimalToNumber "1000000")
      = JSNumber.ofInt (-1000000) := by
    rw [hp, hl, h1, hsub, hmul]
  have hsent := sent_of_page_and_limit decimalToNumber "0" "1000000"
  rw [hoff] at hsent
  exact ⟨hsent.1, ⟨[], rfl⟩, hsent.2, ⟨[], rfl⟩⟩

/-- Claim C6 as amended: the listing handlers do not validate `page` and
`limit`.  For every request, each handler builds one statement and passes it to
the database; the response is the rows the database returns, and the only
error response is status 500, sent when the database reports an error. -/
theorem listAirdrops_always_queries {Row : Type} (toNum : String → JSNumber)
    (dbAll : Statement → DbAll Row) (q : ListRequest) :
    (AirdropDiscovery.listAirdrops toNum dbAll q).sent
        = [AirdropDiscovery.buildListQuery toNum q]
      ∧ (∀ rows, dbAll (AirdropDiscovery.buildListQuery toNum q) = DbAll.rows rows →
          (AirdropDiscovery.listAirdrops toNum dbAll q).response = ListResponse.json rows)
      ∧ (∀ status text,
          (AirdropDiscovery.listAirdrops toNum dbAll q).response = ListResponse.error status text →
          status = 500 ∧ ∃ m, dbAll (AirdropDiscovery.buildListQuery toNum q) = DbAll.error m)
      ∧ (Koltech.listAirdrops toNum dbAll q).sent = [Koltech.buildListQuery toNum q]
      ∧ (∀ rows, dbAll (Koltech.buildListQuery toNum q) = DbAll.rows rows →
          (Koltech.listAirdrops toNum dbAll q).response = ListResponse.json rows)
      ∧ (∀ status text,
          (Koltech.listAirdrops toNum dbAll q).response = ListResponse.error status text →
          status = 500 ∧ ∃ m, dbAll (Koltech.buildListQuery toNum q) = DbAll.error m) := by
  refine ⟨?_, ?_, ?_, ?_, ?_, ?_⟩
  · simp only [AirdropDiscovery.listAirdrops]
    split <;> rfl
  · intro rows h
    simp [AirdropDiscovery.listAirdrops, h]
  · intro status text hr
    simp only [AirdropDiscovery.listAirdrops] at hr
    split at hr
    · rename_i m hm
      simp only [ListResponse.error.injEq] at hr
      exact ⟨hr.1.symm, m, hm⟩
    · simp at hr
  · simp only [Koltech.listAirdrops]
    split <;> rfl
  · intro rows h
    simp [Koltech.listAirdrops, h]
  · intro status text hr
    simp only [Koltech.listAirdrops] at hr
    split at hr
    · rename_i m hm
      simp only [ListResponse.error.injEq] at hr
      exact ⟨hr.1.symm, m, hm⟩
    · simp at hr

/-- Witness of the amended C6: with a database that returns one row, the
request for page 0 is answered with that row. -/
theorem listAirdrops_always_queries_witness :
    (AirdropDiscovery.listAirdrops decimalToNumber
        (fun _ => DbAll.rows [(⟨7, 100⟩ : AirdropRow)])
        ⟨none, none, none, some "0", some "1000000"⟩).response
      = ListResponse.json [⟨7, 100⟩] :=
  (listAirdrops_always_queries decimalToNumber
    (fun _ => DbAll.rows [(⟨7, 100⟩ : AirdropRow)])
    ⟨none, none, none, some "0", some "1000000"⟩).2.1 [⟨7, 100⟩] rfl


/-! ## Theorems: the ordering clause and pagination -/

theorem discovery_orderByTerms_buildListQuery (toNum : String → JSNumber)
    (q : ListRequest) : orderByTerms (AirdropDiscovery.buildListQuery toNum q).query = ["created_at DESC"] := by
  rw [discovery_buildListQuery_query]
  generalize truthy q.chain = a
  generalize truthy q.status = b
  generalize truthy q.search = c
  cases a <;> cases b <;> cases c <;> decide

theorem koltech_orderByTerms_buildListQuery (toNum : String → JSNumber)
    (q : ListRequest) : orderByTerms (Koltech.buildListQuery toNum q).query = ["created_at DESC"] := by
  rw [koltech_buildListQuery_query]
  generalize truthy q.chain = a
  generalize truthy q.status = b
  cases a <;> cases b <;> decide

/-- When the creation times of the selected rows are pairwise different, there
is only one arrangement of them with the newest first. -/
theorem newestFirst_arrangement_unique (selected o1 o2 : List AirdropRow)
    (hdistinct : (selected.map (fun r => r.created_at)).Nodup)
    (hp1 : o1.Perm selected) (hs1 : o1.Sorted newestFirst)
    (hp2 : o2.Perm selected) (hs2 : o2.Sorted newestFirst) : o1 = o2 := by
  have strict : ∀ o : List AirdropRow, o.Perm selected → o.Sorted newestFirst →
      o.Sorted (fun a b => b.created_at < a.created_at) := by
    intro o hp hs
    have hnd : (o.map (fun r => r.created_at)).Nodup :=
      ((hp.map (fun r => r.created_at)).nodup_iff).2 hdistinct
    have hne : o.Pairwise (fun a b => a.created_at ≠ b.created_at) := by
      have := hnd
      unfold List.Nodup at this
      exact List.pairwise_map.1 this
    exact (List.Pairwise.and hs hne).imp
      (fun {a b} h => lt_of_le_of_ne h.1 (fun e => h.2 e.symm))
  haveI : IsAntisymm AirdropRow (fun a b => b.created_at < a.created_at) :=
    ⟨fun a b h1 h2 => absurd h1 (Nat.lt_asymm h2)⟩
  exact List.eq_of_perm_of_sorted (hp1.trans hp2.symm) (strict o1 hp1 hs1) (strict o2 hp2 hs2)

/-- Counterexample to C9: the ordering clause of the statement has the single
term `created_at DESC`, without a tiebreaker; with two rows created at the same
time and one row per page, row 1 is a possible page 1 and also a possible
page 2, so a row can be repeated and row 2 skipped. -/
theorem orderBy_has_no_tiebreaker :
    orderByTerms (AirdropDiscovery.buildListQuery decimalToNumber
        ⟨none, none, none, some "2", some "1"⟩).query = ["created_at DESC"]
      ∧ orderByTerms (Koltech.buildListQuery decimalToNumber
        ⟨none, none, none, some "2", some "1"⟩).query = ["created_at DESC"]
      ∧ IsPage [⟨1, 100⟩, ⟨2, 100⟩] 1 0 [⟨1, 100⟩]
      ∧ IsPage [⟨1, 100⟩, ⟨2, 100⟩] 1 1 [⟨1, 100⟩] := by
  refine ⟨by decide, by decide, ?_, ?_⟩
  · exact ⟨[⟨1, 100⟩, ⟨2, 100⟩], by decide, by decide, by decide⟩
  · exact ⟨[⟨2, 100⟩, ⟨1, 100⟩], by decide, by decide, by decide⟩

/-- Claim C9 as amended: the ordering clause of the listing statement of
either backend is `created_at DESC` alone, newest first and without a
tiebreaker.  When no two of the selected rows share a creation time there is
exactly one arrangement with the newest first, and page 1 and page 2 of the
same size are its first two consecutive windows: together they are its first
`limit + limit` rows, and no row is on both pages. -/
theorem orderBy_created_at_pages (toNum : String → JSNumber) (q : ListRequest)
    (selected : List AirdropRow) (limit : Nat) (page1 page2 : List AirdropRow)
    (hdistinct : (selected.map (fun r => r.created_at)).Nodup)
    (h1 : IsPage selected limit 0 page1) (h2 : IsPage selected limit limit page2) :
    orderByTerms (AirdropDiscovery.buildListQuery toNum q).query = ["created_at DESC"]
      ∧ orderByTerms (Koltech.buildListQuery toNum q).query = ["created_at DESC"]
      ∧ ∃ ordered : List AirdropRow,
          ordered.Perm selected ∧ ordered.Sorted newestFirst
            ∧ (∀ o : List AirdropRow, o.Perm selected → o.Sorted newestFirst → o = ordered)
            ∧ page1 ++ page2 = ordered.take (limit + limit)
            ∧ page1.Disjoint page2 := by
  refine ⟨discovery_orderByTerms_buildListQuery toNum q,
    koltech_orderByTerms_buildListQuery toNum q, ?_⟩
  obtain ⟨o1, hp1, hs1, e1⟩ := h1
  obtain ⟨o2, hp2, hs2, e2⟩ := h2
  have heq : o2 = o1 := newestFirst_arrangement_unique selected o2 o1 hdistinct hp2 hs2 hp1 hs1
  subst heq
  refine ⟨o2, hp2, hs2, ?_, ?_, ?_⟩
  · intro o hp hs
    exact newestFirst_arrangement_unique selected o o2 hdistinct hp hs hp2 hs2
  · rw [e1, e2, List.drop_zero, List.take_add]
  · have hnd : o2.Nodup :=
      List.Nodup.of_map (fun r => r.created_at)
        (((hp2.map (fun r => r.created_at)).nodup_iff).2 hdistinct)
    have hd : (o2.take limit).Disjoint (o2.drop limit) :=
      List.disjoint_take_drop hnd (Nat.le_refl limit)
    rw [e1, e2, List.drop_zero]
    intro r hr1 hr2
    exact hd hr1 (List.mem_of_mem_take hr2)

/-- Witness of the amended C9: three rows with different creation times, one
row per page; page 1 is the newest row and page 2 the next one. -/
theorem orderBy_created_at_pages_witness :
    ∃ ordered : List AirdropRow,
      ordered.Perm [⟨1, 100⟩, ⟨2, 200⟩, ⟨3, 150⟩] ∧ ordered.Sorted newestFirst
        ∧ (∀ o : List AirdropRow, o.Perm [⟨1, 100⟩, ⟨2, 200⟩, ⟨3, 150⟩] →
            o.Sorted newestFirst → o = ordered)
        ∧ [(⟨2, 200⟩ : AirdropRow)] ++ [⟨3, 150⟩] = ordered.take (1 + 1)
        ∧ [(⟨2, 200⟩ : AirdropRow)].Disjoint [⟨3, 150⟩] :=
  (orderBy_created_at_pages decimalToNumber ⟨none, none, none, none, some "1"⟩
    [⟨1, 100⟩, ⟨2, 200⟩, ⟨3, 150⟩] 1 [⟨2, 200⟩] [⟨3, 150⟩] (by decide)
    ⟨[⟨2, 200⟩, ⟨3, 150⟩, ⟨1, 100⟩], by decide, by decide, by decide⟩
    ⟨[⟨2, 200⟩, ⟨3, 150⟩, ⟨1, 100⟩], by decide, by decide, by decide⟩).2.2


/-! ## Theorems: the table `users` -/

theorem sameKey_iff (a b : String) : sameKey a b = true ↔ toLowerCase a = toLowerCase b := by
  simp [sameKey]

theorem sameKey_refl (a : String) : sameKey a a = true := (sameKey_iff a a).2 rfl

theorem sameKey_congr_right {a b : String} (h : sameKey a b = true) (u : String) :
    sameKey u a = sameKey u b := by
  have hab := (sameKey_iff a b).1 h
  simp [sameKey, hab]

theorem selectNonce_updateLastLogin (db : Users) (a b : String) (now : Nat) :
    selectNonce (updateLastLogin db a now) b = selectNonce db b := by
  induction db with
  | nil => rfl
  | cons u rest ih =>
    simp only [selectNonce, updateLastLogin, List.map_cons, List.find?_cons] at ih ⊢
    by_cases hu : sameKey u.wallet_address a = true
    · by_cases hb : sameKey u.wallet_address b = true
      · simp only [hu, if_true, hb, Option.map_some']
      · rw [Bool.not_eq_true] at hb
        simp only [hu, if_true, hb]
        exact ih
    · rw [Bool.not_eq_true] at hu
      by_cases hb : sameKey u.wallet_address b = true
      · simp only [hu, Bool.false_eq_true, if_false, hb, Option.map_some']
      · rw [Bool.not_eq_true] at hb
        simp only [hu, Bool.false_eq_true, if_false, hb]
        exact ih

theorem filter_insertOrReplace_same (db : Users) (a n : String) :
    (insertOrReplace db a n).filter (fun u => sameKey u.wallet_address a) = [⟨a, n, none⟩] := by
  simp only [insertOrReplace, List.filter_append, List.filter_filter]
  have h : db.filter
      (fun u => (sameKey u.wallet_address a && !sameKey u.wallet_address a)) = [] := by
    rw [List.filter_eq_nil_iff]
    intro u _
    cases sameKey u.wallet_address a <;> simp
  rw [h]
  simp [List.filter_cons, sameKey_refl]

theorem filter_insertOrReplace_other (db : Users) (a b n : String)
    (hab : sameKey b a = false) :
    (insertOrReplace db a n).filter (fun u => sameKey u.wallet_address b)
      = db.filter (fun u => sameKey u.wallet_address b) := by
  simp only [insertOrReplace, List.filter_append, List.filter_filter]
  have hba : sameKey a b = false := by
    have hne : ¬ toLowerCase b = toLowerCase a := by
      intro h
      rw [(sameKey_iff b a).2 h] at hab
      exact Bool.noConfusion hab
    cases hs : sameKey a b with
    | false => rfl
    | true => exact absurd ((sameKey_iff a b).1 hs).symm hne
  have h1 : ([(⟨a, n, none⟩ : User)]).filter (fun u => sameKey u.wallet_address b) = [] := by
    simp [List.filter_cons, hba]
  rw [h1, List.append_nil]
  apply List.filter_congr
  intro u _
  cases hub : sameKey u.wallet_address b with
  | false => simp
  | true =>
    have : sameKey u.wallet_address a = false := by
      cases hua : sameKey u.wallet_address a with
      | false => rfl
      | true =>
        have e1 := (sameKey_iff _ _).1 hua
        have e2 := (sameKey_iff _ _).1 hub
        have : sameKey b a = true := (sameKey_iff b a).2 (e2.symm.trans e1)
        rw [this] at hab
        exact Bool.noConfusion hab
    simp [this]

theorem selectNonce_eq_of_filter (db1 db2 : Users) (a : String)
    (h : db1.filter (fun u => sameKey u.wallet_address a)
      = db2.filter (fun u => sameKey u.wallet_address a)) :
    selectNonce db1 a = selectNonce db2 a := by
  have key : ∀ db : Users, db.find? (fun u => sameKey u.wallet_address a)
      = (db.filter (fun u => sameKey u.wallet_address a)).head? := by
    intro db
    induction db with
    | nil => rfl
    | cons u rest ih =>
      by_cases hu : sameKey u.wallet_address a = true
      · simp only [List.find?_cons, List.filter_cons, hu, if_true, List.head?_cons]
      · rw [Bool.not_eq_true] at hu
        simp only [List.find?_cons, List.filter_cons, hu, Bool.false_eq_true, if_false]
        exact ih
  simp only [selectNonce, key, h]

theorem selectNonce_insertOrReplace_same (db : Users) (a n : String) :
    selectNonce (insertOrReplace db a n) a = some n := by
  have h := selectNonce_eq_of_filter (insertOrReplace db a n) [⟨a, n, none⟩] a
    (by rw [filter_insertOrReplace_same]; simp [List.filter_cons, sameKey_refl])
  rw [h]
  simp [selectNonce, sameKey_refl]

theorem selectNonce_congr_key (db : Users) {a b : String} (h : sameKey a b = true) :
    selectNonce db a = selectNonce db b := by
  have hf : (fun u : User => sameKey u.wallet_address a)
      = (fun u : User => sameKey u.wallet_address b) := by
    funext u
    exact sameKey_congr_right h u.wallet_address
  simp only [selectNonce, hf]

theorem selectNonce_insertOrReplace_other (db : Users) (a b n : String)
    (hab : sameKey b a = false) :
    selectNonce (insertOrReplace db a n) b = selectNonce db b :=
  selectNonce_eq_of_filter _ _ b (filter_insertOrReplace_other db a b n hab)

theorem authNonce_valid (E : ServerEnv) (db : Users) (a : String) (r : RandomDraw)
    (ha : E.isAddress a = true) :
    authNonce E db a r false = (.nonce (generateNonce r), insertOrReplace db a (generateNonce r)) := by
  simp [authNonce, ha]

theorem authVerify_valid (E : ServerEnv) (db : Users) (now : Nat) (a sig : String)
    (uf : Bool) (ha : E.isAddress a = true) :
    authVerify E db now a sig false uf
      = verifyCallback E db now a sig (selectNonce db a) uf := by
  simp [authVerify, ha]

theorem authVerify_invalid (E : ServerEnv) (db : Users) (now : Nat) (a sig : String)
    (gf uf : Bool) (ha : E.isAddress a = false) :
    authVerify E db now a sig gf uf = (.error 400 "Invalid wallet address", db) := by
  simp [authVerify, ha]

/-- Every address in a reachable table passed the address check. -/
theorem Reachable.addresses_valid {E : ServerEnv} {db : Users} (h : Reachable E db) :
    ∀ u ∈ db, E.isAddress u.wallet_address = true := by
  induction h with
  | init => intro u hu; simp at hu
  | @step db now req _ ih =>
    cases req with
    | nonce a r f =>
      simp only [handle, authNonce]
      by_cases ha : E.isAddress a = true
      · cases f
        · simp only [ha, Bool.not_true, Bool.false_eq_true, if_false, insertOrReplace]
          intro u hu
          rcases List.mem_append.1 hu with hu | hu
          · exact ih u (List.mem_of_mem_filter hu)
          · simp only [List.mem_singleton] at hu
            subst hu
            exact ha
        · simpa [ha] using ih
      · simpa [ha] using ih
    | verify a sig gf uf =>
      simp only [handle, authVerify, verifyCallback]
      intro u hu
      have hupd : ∀ v ∈ updateLastLogin db a now, E.isAddress v.wallet_address = true := by
        intro v hv
        simp only [updateLastLogin, List.mem_map] at hv
        obtain ⟨w, hw, rfl⟩ := hv
        have := ih w hw
        split <;> simpa using this
      revert hu
      split
      · exact ih u
      · split
        · exact ih u
        · split
          · exact ih u
          · split
            · split
              · exact ih u
              · split
                · exact ih u
                · exact hupd u
            · exact ih u

/-! ## Theorems: the message format -/

theorem append_left_cancel (p a b : String) (h : p ++ a = p ++ b) : a = b := by
  have hd := congrArg String.data h
  simp only [String.data_append] at hd
  exact String.ext (List.append_cancel_left hd)

/-- Claim C10: for every nonce the message the server verifies against and the
message `generateNonceMessage` produces are the same string, the constant
prefix "Sign this message to verify your wallet. Nonce: " followed by the
nonce; and both maps from nonce to message are injective. -/
theorem message_format_shared_and_injective (nonce : String) :
    message nonce = generateNonceMessage nonce
      ∧ message nonce = "Sign this message to verify your wallet. Nonce: " ++ nonce
      ∧ (∀ n1 n2 : String, message n1 = message n2 → n1 = n2)
      ∧ (∀ n1 n2 : String, generateNonceMessage n1 = generateNonceMessage n2 → n1 = n2) :=
  ⟨rfl, rfl, fun _ _ h => append_left_cancel _ _ _ h, fun _ _ h => append_left_cancel _ _ _ h⟩

/-- Witness of C10: the messages of two different nonces differ. -/
theorem message_format_shared_and_injective_witness :
    message "482913" ≠ message "482914" :=
  fun h => absurd ((message_format_shared_and_injective "").2.2.1 "482913" "482914" h)
    (by decide)


/-! ## Theorems: the login handlers -/

theorem verifyCallback_response (E : ServerEnv) (db : Users) (now : Nat)
    (a sig nonce : String) (uf : Bool) :
    (verifyCallback E db now a sig (some nonce) uf).1 =
      match E.verifyMessage (message nonce) sig with
      | none => AuthResponse.error 400 "Signature verification failed"
      | some recoveredAddress =>
        if toLowerCase recoveredAddress = toLowerCase a then
          if truthy E.jwtSecret = true then AuthResponse.token (signedToken a now)
          else AuthResponse.error 400 "Signature verification failed"
        else AuthResponse.error 401 "Invalid signature" := by
  simp only [verifyCallback, jwtSign]
  cases E.verifyMessage (message nonce) sig with
  | none => rfl
  | some rec =>
    by_cases h : toLowerCase rec = toLowerCase a
    · cases hs : truthy E.jwtSecret <;> simp [h, hs]
    · simp [h]

theorem selectNonce_verifyCallback (E : ServerEnv) (db : Users) (now : Nat) (a sig : String)
    (row : Option String) (uf : Bool) (b : String) :
    selectNonce (verifyCallback E db now a sig row uf).2 b = selectNonce db b := by
  simp only [verifyCallback]
  split
  · rfl
  · split
    · rfl
    · split
      · split
        · rfl
        · cases uf
          · simp only [Bool.false_eq_true, if_false]
            exact selectNonce_updateLastLogin db a b now
          · rfl
      · rfl

/-- Counterexample to C2: after one nonce request, the same address and
signature are accepted by `/api/auth/verify` twice in a row; the second
request also returns a token. -/
theorem nonce_accepted_twice :
    (run sampleServer []
      [(0, AuthRequest.nonce "0xd8da6bf26964af9d7eed9e03e53415d37aa96045" 482913 false),
       (10, AuthRequest.verify "0xd8da6bf26964af9d7eed9e03e53415d37aa96045"
          "alice(Sign this message to verify your wallet. Nonce: 482913)" false false),
       (20, AuthRequest.verify "0xd8da6bf26964af9d7eed9e03e53415d37aa96045"
          "alice(Sign this message to verify your wallet. Nonce: 482913)" false false)]).1
      = [AuthResponse.nonce "482913",
         AuthResponse.token ⟨"0xd8da6bf26964af9d7eed9e03e53415d37aa96045", 10, 86410⟩,
         AuthResponse.token ⟨"0xd8da6bf26964af9d7eed9e03e53415d37aa96045", 20, 86420⟩] := by
  decide

/-- Claim C2 as amended: the nonce is not used up by a successful
verification.  After a nonce request for an address and one successful
`/api/auth/verify`, a second `/api/auth/verify` with the same address and the
same signature, with no nonce request in between, succeeds again and returns a
token for the address; the stored nonce is still the one that was issued. -/
theorem authVerify_succeeds_again (E : ServerEnv) (db : Users) (address signature : String)
    (r : RandomDraw) (now1 now2 : Nat) (uf1 uf2 : Bool) (t : Token)
    (hfirst : (authVerify E (authNonce E db address r false).2 now1 address signature
      false uf1).1 = AuthResponse.token t) :
    (authVerify E
        (authVerify E (authNonce E db address r false).2 now1 address signature false uf1).2
        now2 address signature false uf2).1 = AuthResponse.token (signedToken address now2)
      ∧ selectNonce
          (authVerify E (authNonce E db address r false).2 now1 address signature false uf1).2
          address = some (generateNonce r) := by
  have ha : E.isAddress address = true := by
    by_contra hne
    simp [authVerify, hne] at hfirst
  rw [authNonce_valid E db address r ha] at hfirst ⊢
  simp only [authVerify_valid E _ _ address signature _ ha] at hfirst ⊢
  have hsel := selectNonce_insertOrReplace_same db address (generateNonce r)
  rw [hsel] at hfirst
  rw [selectNonce_verifyCallback, hsel]
  rw [verifyCallback_response] at hfirst ⊢
  refine ⟨?_, rfl⟩
  cases hv : E.verifyMessage (message (generateNonce r)) signature with
  | none => simp [hv] at hfirst
  | some rec =>
    simp only [hv] at hfirst ⊢
    by_cases hl : toLowerCase rec = toLowerCase address
    · cases hs : truthy E.jwtSecret with
      | true => simp [hl]
      | false => simp [hl, hs] at hfirst
    · simp [hl] at hfirst

/-- Witness of the amended C2. -/
theorem authVerify_succeeds_again_witness :
    (authVerify sampleServer
        (authVerify sampleServer
          (authNonce sampleServer [] "0xd8da6bf26964af9d7eed9e03e53415d37aa96045" 482913
            false).2
          10 "0xd8da6bf26964af9d7eed9e03e53415d37aa96045"
          "alice(Sign this message to verify your wallet. Nonce: 482913)" false false).2
        20 "0xd8da6bf26964af9d7eed9e03e53415d37aa96045"
        "alice(Sign this message to verify your wallet. Nonce: 482913)" false false).1
      = AuthResponse.token (signedToken "0xd8da6bf26964af9d7eed9e03e53415d37aa96045" 20) :=
  (authVerify_succeeds_again sampleServer [] "0xd8da6bf26964af9d7eed9e03e53415d37aa96045"
    "alice(Sign this message to verify your wallet. Nonce: 482913)" 482913 10 20 false false
    ⟨"0xd8da6bf26964af9d7eed9e03e53415d37aa96045", 10, 86410⟩ (by decide)).1

/-- Counterexample to C3: with `JWT_SECRET` not set, a signature whose
recovered signer equals the claimed address (after lowercasing) over the stored
nonce is answered with 400 "Signature verification failed" and no token,
because signing the token throws inside the `try`. -/
theorem matching_signer_rejected_without_secret :
    (run sampleServerNoSecret []
      [(0, AuthRequest.nonce "0xd8da6bf26964af9d7eed9e03e53415d37aa96045" 482913 false),
       (10, AuthRequest.verify "0xd8da6bf26964af9d7eed9e03e53415d37aa96045"
          "alice(Sign this message to verify your wallet. Nonce: 482913)" false false)]).1
      = [AuthResponse.nonce "482913", AuthResponse.error 400 "Signature verification failed"]
    ∧ sampleServerNoSecret.verifyMessage (message "482913")
        "alice(Sign this message to verify your wallet. Nonce: 482913)"
      = some "0xd8dA6BF26964aF9D7eEd9e03E53415D37aA96045"
    ∧ toLowerCase "0xd8dA6BF26964aF9D7eEd9e03E53415D37aA96045"
      = toLowerCase "0xd8da6bf26964af9d7eed9e03e53415d37aa96045" := by
  refine ⟨by decide, by decide, by decide⟩

/-- Claim C3 as amended: for every claimed address and signature and every
nonce stored for the address, `/api/auth/verify` returns a token exactly when
the address passes the address check, `JWT_SECRET` is set, and recovering the
signer of the message built from the nonce succeeds with a recovered address
equal to the claimed one after lowercasing both; the token is then the one
signed for the claimed address.  For a valid address: when the recovered
address differs the response is 401 "Invalid signature" and the table is
unchanged; when recovery throws, or when the signer matches but signing the
token throws because the secret is not set, the response is 400 "Signature
verification failed".  An address that fails the check is answered with 400
"Invalid wallet address".  The frontend helper `verifySignature` accepts
exactly when recovery succeeds and the lowercased addresses are equal. -/
theorem authVerify_token_iff_signer_matches (E : ServerEnv) (db : Users) (now : Nat)
    (address signature nonce : String) (uf : Bool)
    (hrow : selectNonce db address = some nonce) :
    ((∃ t, (authVerify E db now address signature false uf).1 = AuthResponse.token t) ↔
        E.isAddress address = true ∧ truthy E.jwtSecret = true
          ∧ ∃ recovered, E.verifyMessage (message nonce) signature = some recovered
            ∧ toLowerCase recovered = toLowerCase address)
      ∧ (∀ t, (authVerify E db now address signature false uf).1 = AuthResponse.token t →
          t = signedToken address now)
      ∧ (E.isAddress address = true →
          ∀ recovered, E.verifyMessage (message nonce) signature = some recovered →
          toLowerCase recovered ≠ toLowerCase address →
          authVerify E db now address signature false uf
            = (AuthResponse.error 401 "Invalid signature", db))
      ∧ (E.isAddress address = true →
          E.verifyMessage (message nonce) signature = none →
          authVerify E db now address signature false uf
            = (AuthResponse.error 400 "Signature verification failed", db))
      ∧ (E.isAddress address = true → truthy E.jwtSecret = false →
          ∀ recovered, E.verifyMessage (message nonce) signature = some recovered →
          toLowerCase recovered = toLowerCase address →
          authVerify E db now address signature false uf
            = (AuthResponse.error 400 "Signature verification failed", db))
      ∧ (E.isAddress address = false →
          authVerify E db now address signature false uf
            = (AuthResponse.error 400 "Invalid wallet address", db))
      ∧ (verifySignature E.toEthers (message nonce) signature address = true ↔
          ∃ recovered, E.verifyMessage (message nonce) signature = some recovered
            ∧ toLowerCase recovered = toLowerCase address) := by
  have hresp := verifyCallback_response E db now address signature nonce uf
  refine ⟨?_, ?_, ?_, ?_, ?_, ?_, ?_⟩
  · cases ha : E.isAddress address with
    | false => simp [authVerify_invalid E db now address signature false uf ha]
    | true =>
      rw [authVerify_valid E db now address signature uf ha, hrow, hresp]
      cases hv : E.verifyMessage (message nonce) signature with
      | none => simp
      | some rec =>
        by_cases hl : toLowerCase rec = toLowerCase address
        · cases hs : truthy E.jwtSecret <;> simp [hl]
        · simp [hl]
  · intro t ht
    cases ha : E.isAddress address with
    | false => simp [authVerify_invalid E db now address signature false uf ha] at ht
    | true =>
      rw [authVerify_valid E db now address signature uf ha, hrow, hresp] at ht
      cases hv : E.verifyMessage (message nonce) signature with
      | none => simp [hv] at ht
      | some rec =>
        by_cases hl : toLowerCase rec = toLowerCase address
        · cases hs : truthy E.jwtSecret with
          | false => simp [hv, hl, hs] at ht
          | true =>
            simp only [hv, hl, hs, if_true, AuthResponse.token.injEq] at ht
            exact ht.symm
        · simp [hv, hl] at ht
  · intro ha rec hv hl
    rw [authVerify_valid E db now address signature uf ha, hrow]
    simp [verifyCallback, hv, hl]
  · intro ha hv
    rw [authVerify_valid E db now address signature uf ha, hrow]
    simp [verifyCallback, hv]
  · intro ha hs rec hv hl
    rw [authVerify_valid E db now address signature uf ha, hrow]
    simp [verifyCallback, hv, hl, jwtSign, hs]
  · intro ha
    exact authVerify_invalid E db now address signature false uf ha
  · simp only [verifySignature]
    cases hv : E.verifyMessage (message nonce) signature with
    | none => simp
    | some rec => simp

/-- Witness of the amended C3: a signature by another account over the stored
nonce is answered with 401 "Invalid signature". -/
theorem authVerify_token_iff_signer_matches_witness :
    authVerify sampleServer
        [⟨"0xd8da6bf26964af9d7eed9e03e53415d37aa96045", "482913", none⟩]
        10 "0xd8da6bf26964af9d7eed9e03e53415d37aa96045"
        "bob(Sign this message to verify your wallet. Nonce: 482913)" false false
      = (AuthResponse.error 401 "Invalid signature",
          [⟨"0xd8da6bf26964af9d7eed9e03e53415d37aa96045", "482913", none⟩]) :=
  (authVerify_token_iff_signer_matches sampleServer
    [⟨"0xd8da6bf26964af9d7eed9e03e53415d37aa96045", "482913", none⟩] 10
    "0xd8da6bf26964af9d7eed9e03e53415d37aa96045"
    "bob(Sign this message to verify your wallet. Nonce: 482913)" "482913" false
    (by decide)).2.2.1 (by decide) bobAddress (by decide) (by decide)

/-- Counterexample to C4: when the draw of a second nonce request equals the
stored nonce, the old value is still the one `/api/auth/verify` checks
against: the signature made over the first nonce is accepted after the
re-issue. -/
theorem reissued_nonce_can_equal_the_old_one :
    (run sampleServer []
      [(0, AuthRequest.nonce "0xd8da6bf26964af9d7eed9e03e53415d37aa96045" 482913 false),
       (5, AuthRequest.nonce "0xd8da6bf26964af9d7eed9e03e53415d37aa96045" 482913 false),
       (10, AuthRequest.verify "0xd8da6bf26964af9d7eed9e03e53415d37aa96045"
          "alice(Sign this message to verify your wallet. Nonce: 482913)" false false)]).1
      = [AuthResponse.nonce "482913", AuthResponse.nonce "482913",
         AuthResponse.token ⟨"0xd8da6bf26964af9d7eed9e03e53415d37aa96045", 10, 86410⟩] := by
  decide

/-- Claim C4 as amended: for every valid address and every prior table, a nonce
request returns the generated nonce and leaves exactly one row for the address,
holding that nonce (whatever row the address had before is gone); that nonce is
the one `/api/auth/verify` then checks a signature against; the old value is no
longer the one it checks against whenever the new nonce differs from it, and
the messages of the two then differ; and the rows of every other address, and
so the nonce looked up for it, are unchanged. -/
theorem authNonce_overwrites_only_own_challenge (E : ServerEnv) (db : Users)
    (address : String) (r : RandomDraw) (hvalid : E.isAddress address = true) :
    (authNonce E db address r false).1 = AuthResponse.nonce (generateNonce r)
      ∧ (authNonce E db address r false).2.filter
            (fun u => sameKey u.wallet_address address)
          = [⟨address, generateNonce r, none⟩]
      ∧ selectNonce (authNonce E db address r false).2 address = some (generateNonce r)
      ∧ (∀ (now : Nat) (signature : String) (uf : Bool),
          authVerify E (authNonce E db address r false).2 now address signature false uf
            = verifyCallback E (authNonce E db address r false).2 now address signature
                (some (generateNonce r)) uf)
      ∧ (∀ old : String, selectNonce db address = some old → old ≠ generateNonce r →
          selectNonce (authNonce E db address r false).2 address ≠ some old
            ∧ message old ≠ message (generateNonce r))
      ∧ (∀ other : String, sameKey other address = false →
          (authNonce E db address r false).2.filter
                (fun u => sameKey u.wallet_address other)
              = db.filter (fun u => sameKey u.wallet_address other)
            ∧ selectNonce (authNonce E db address r false).2 other = selectNonce db other) := by
  rw [authNonce_valid E db address r hvalid]
  refine ⟨rfl, filter_insertOrReplace_same db address _,
    selectNonce_insertOrReplace_same db address _, ?_, ?_, ?_⟩
  · intro now signature uf
    rw [authVerify_valid E _ now address signature uf hvalid,
      selectNonce_insertOrReplace_same]
  · intro old _ hne
    rw [selectNonce_insertOrReplace_same]
    refine ⟨fun h => hne (Option.some.inj h).symm, fun h => hne ?_⟩
    exact append_left_cancel _ _ _ h
  · intro other hne
    exact ⟨filter_insertOrReplace_other db address other _ hne,
      selectNonce_insertOrReplace_other db address other _ hne⟩

/-- Witness of the amended C4: a second nonce request for an address replaces
its row and keeps the row of the other address. -/
theorem authNonce_overwrites_only_own_challenge_witness :
    (authNonce sampleServer
        [⟨"0xd8da6bf26964af9d7eed9e03e53415d37aa96045", "111111", some 5⟩,
         ⟨"0x5b38da6a701c568545dcfcb03fcb875f56beddc4", "222222", none⟩]
        "0xd8da6bf26964af9d7eed9e03e53415d37aa96045" 482913 false).2.filter
        (fun u => sameKey u.wallet_address "0xd8da6bf26964af9d7eed9e03e53415d37aa96045")
      = [⟨"0xd8da6bf26964af9d7eed9e03e53415d37aa96045", generateNonce 482913, none⟩] :=
  (authNonce_overwrites_only_own_challenge sampleServer
    [⟨"0xd8da6bf26964af9d7eed9e03e53415d37aa96045", "111111", some 5⟩,
     ⟨"0x5b38da6a701c568545dcfcb03fcb875f56beddc4", "222222", none⟩]
    "0xd8da6bf26964af9d7eed9e03e53415d37aa96045" 482913 (by decide)).2.1

/-- Counterexample to C5: a verification submitted 601 seconds after the nonce
was issued, and one submitted a year after it, with a correct signature over
the stored nonce, both return a token. -/
theorem challenge_accepted_after_window :
    (run sampleServer []
      [(0, AuthRequest.nonce "0xd8da6bf26964af9d7eed9e03e53415d37aa96045" 482913 false),
       (601, AuthRequest.verify "0xd8da6bf26964af9d7eed9e03e53415d37aa96045"
          "alice(Sign this message to verify your wallet. Nonce: 482913)" false false)]).1
      = [AuthResponse.nonce "482913",
         AuthResponse.token ⟨"0xd8da6bf26964af9d7eed9e03e53415d37aa96045", 601, 87001⟩]
    ∧ (run sampleServer []
      [(0, AuthRequest.nonce "0xd8da6bf26964af9d7eed9e03e53415d37aa96045" 482913 false),
       (31536000, AuthRequest.verify "0xd8da6bf26964af9d7eed9e03e53415d37aa96045"
          "alice(Sign this message to verify your wallet. Nonce: 482913)" false false)]).1
      = [AuthResponse.nonce "482913",
         AuthResponse.token ⟨"0xd8da6bf26964af9d7eed9e03e53415d37aa96045", 31536000,
           31622400⟩] := by
  constructor <;> decide

/-- Claim C5 as amended: a challenge does not expire.  For every valid
address, with `JWT_SECRET` set, a `/api/auth/verify` submitted more than 10
minutes (600 seconds) after the nonce request, with a signature over the
stored nonce whose recovered signer is the address, succeeds and returns a
token issued at the time of the verification. -/
theorem authVerify_succeeds_after_window (E : ServerEnv) (db : Users)
    (address signature recovered : String) (r : RandomDraw) (issued submitted : Nat)
    (uf : Bool)
    (hvalid : E.isAddress address = true)
    (hsecret : truthy E.jwtSecret = true)
    (hsig : E.verifyMessage (message (generateNonce r)) signature = some recovered)
    (hsigner : toLowerCase recovered = toLowerCase address)
    (_hlate : issued + 600 < submitted) :
    (run E db
      [(issued, AuthRequest.nonce address r false),
       (submitted, AuthRequest.verify address signature false uf)]).1
      = [AuthResponse.nonce (generateNonce r),
         AuthResponse.token (signedToken address submitted)] := by
  simp only [run, handle]
  rw [authNonce_valid E db address r hvalid]
  simp only [authVerify_valid E _ submitted address signature uf hvalid,
    selectNonce_insertOrReplace_same, verifyCallback_response, hsig, hsigner, hsecret, if_true]

/-- Witness of the amended C5. -/
theorem authVerify_succeeds_after_window_witness :
    (run sampleServer []
      [(0, AuthRequest.nonce "0xd8da6bf26964af9d7eed9e03e53415d37aa96045" 482913 false),
       (86400, AuthRequest.verify "0xd8da6bf26964af9d7eed9e03e53415d37aa96045"
          "alice(Sign this message to verify your wallet. Nonce: 482913)" false true)]).1
      = [AuthResponse.nonce (generateNonce 482913),
         AuthResponse.token
           (signedToken "0xd8da6bf26964af9d7eed9e03e53415d37aa96045" 86400)] :=
  authVerify_succeeds_after_window sampleServer []
    "0xd8da6bf26964af9d7eed9e03e53415d37aa96045"
    "alice(Sign this message to verify your wallet. Nonce: 482913)" aliceAddress 482913 0 86400
    true (by decide) (by decide) (by decide) (by decide) (by decide)

/-! ## Theorems: the key of the table `users` -/

/-- Claim C11: with the table `users` keyed by the canonical (lowercased)
address, as the spec describes it, for every two valid spellings of an address
that differ only in letter case a nonce issued under one spelling is the
challenge `/api/auth/verify` looks up under the other spelling, and issuing
under both spellings, in either order, leaves a single row for the account. -/
theorem users_keyed_by_canonical_address (E : ServerEnv) (db : Users) (a1 a2 : String)
    (r1 r2 : RandomDraw)
    (hcase : toLowerCase a1 = toLowerCase a2)
    (h1 : E.isAddress a1 = true) (h2 : E.isAddress a2 = true) :
    selectNonce (authNonce E db a1 r1 false).2 a2 = some (generateNonce r1)
      ∧ (∀ (now : Nat) (signature : String) (uf : Bool),
          authVerify E (authNonce E db a1 r1 false).2 now a2 signature false uf
            = verifyCallback E (authNonce E db a1 r1 false).2 now a2 signature
                (some (generateNonce r1)) uf)
      ∧ (authNonce E (authNonce E db a1 r1 false).2 a2 r2 false).2.filter
            (fun u => toLowerCase u.wallet_address == toLowerCase a1)
          = [⟨a2, generateNonce r2, none⟩]
      ∧ (authNonce E (authNonce E db a2 r2 false).2 a1 r1 false).2.filter
            (fun u => toLowerCase u.wallet_address == toLowerCase a1)
          = [⟨a1, generateNonce r1, none⟩] := by
  have hk21 : sameKey a2 a1 = true := (sameKey_iff a2 a1).2 hcase.symm
  have hsel : selectNonce (insertOrReplace db a1 (generateNonce r1)) a2
      = some (generateNonce r1) := by
    rw [selectNonce_congr_key _ hk21]
    exact selectNonce_insertOrReplace_same db a1 _
  have hf : (fun u : User => toLowerCase u.wallet_address == toLowerCase a1)
      = (fun u : User => sameKey u.wallet_address a2) := by
    funext u
    simp only [sameKey, hcase]
  have hf1 : (fun u : User => toLowerCase u.wallet_address == toLowerCase a1)
      = (fun u : User => sameKey u.wallet_address a1) := by
    funext u
    simp only [sameKey]
  refine ⟨?_, ?_, ?_, ?_⟩
  · rw [authNonce_valid E db a1 r1 h1]
    exact hsel
  · intro now signature uf
    rw [authNonce_valid E db a1 r1 h1, authVerify_valid E _ now a2 signature uf h2, hsel]
  · rw [authNonce_valid E _ a2 r2 h2, hf]
    exact filter_insertOrReplace_same _ a2 _
  · rw [authNonce_valid E _ a1 r1 h1, hf1]
    exact filter_insertOrReplace_same _ a1 _

/-- Witness of C11: a nonce issued under the all-lowercase spelling is the one
looked up under the checksummed spelling. -/
theorem users_keyed_by_canonical_address_witness :
    selectNonce
        (authNonce sampleServer [] "0xd8da6bf26964af9d7eed9e03e53415d37aa96045" 482913 false).2
        "0xd8dA6BF26964aF9D7eEd9e03E53415D37aA96045"
      = some (generateNonce 482913) :=
  (users_keyed_by_canonical_address sampleServer []
    "0xd8da6bf26964af9d7eed9e03e53415d37aa96045" "0xd8dA6BF26964aF9D7eEd9e03E53415D37aA96045"
    482913 111111 (by decide) (by decide) (by decide)).1

/-! ## Theorems: the values of the nonce -/

theorem encard_range_generateNonce_le : (Set.range generateNonce).encard ≤ 1000000 := by
  have h : Set.range generateNonce
      = ((Finset.univ.image generateNonce : Finset String) : Set String) := by
    ext x
    simp
  rw [h, Set.encard_coe_eq_coe_finsetCard]
  have hc : (Finset.univ.image generateNonce).card ≤ 1000000 := by
    calc (Finset.univ.image generateNonce).card
        ≤ (Finset.univ : Finset RandomDraw).card := Finset.card_image_le
      _ = 1000000 := by rw [Finset.card_univ]; exact Fintype.card_fin 1000000
  exact_mod_cast hc

/-- Counterexample to C12: the set of nonces that can be returned, over all
values of `Math.floor(Math.random() * 1000000)`, has fewer than 2^128
elements. -/
theorem nonce_values_fewer_than_128_bits :
    (Set.range generateNonce).encard < 2 ^ 128 := by
  have hlt : ((1000000 : ℕ) : ℕ∞) < 2 ^ 128 := by
    have : (1000000 : ℕ) < 2 ^ 128 := by norm_num
    exact_mod_cast this
  exact lt_of_le_of_lt encard_range_generateNonce_le hlt

/-- Claim C12 as amended: the nonce issued by the nonce endpoint (and by the
frontend helper `generateNonce`) is the decimal spelling of an integer from 0
to 999999, so the set of values that can be returned has at most 10^6
elements, which is fewer than 2^20. -/
theorem nonce_is_one_of_a_million (r : RandomDraw) :
    (∃ k : ℕ, k < 1000000 ∧ generateNonce r = toString k)
      ∧ (Set.range generateNonce).encard ≤ 1000000
      ∧ (1000000 : ℕ) < 2 ^ 20 :=
  ⟨⟨r.val, r.isLt, rfl⟩, encard_range_generateNonce_le, by norm_num⟩

/-! ## Theorems: `validateAirdrop` -/

/-- When both dates are present and valid, `validateAirdrop` reports the
end-date error exactly when the start is strictly later than the end. -/
theorem validateAirdrop_end_date_error_iff (R : ValidationRuntime) (data : AirdropData)
    (s e : String) (ts te : ℤ)
    (hs : data.start_date = some s) (he : data.end_date = some e)
    (hs0 : s ≠ "") (he0 : e ≠ "")
    (hts : R.dateTime s = some ts) (hte : R.dateTime e = some te) :
    "End date must be after start date" ∈ (Koltech.validateAirdrop R data).errors ↔ te < ts := by
  simp only [Koltech.validateAirdrop, hs, he, truthy, List.nil_append, List.mem_append]
  have hne : ∀ (l : List String), (∀ x ∈ l, x ≠ "End date must be after start date") →
      ("End date must be after start date" ∈ l ↔ False) :=
    fun l h => ⟨fun hm => h _ hm rfl, False.elim⟩
  have e1 : ∀ (b : Bool) (t : String), t ≠ "End date must be after start date" →
      ("End date must be after start date" ∈ (if b = true then [] else [t]) ↔ False) := by
    intro b t ht
    cases b <;> simp [ht.symm]
  have e2 : ∀ (b : Bool) (t : String), t ≠ "End date must be after start date" →
      ("End date must be after start date" ∈ (if b = true then [t] else []) ↔ False) := by
    intro b t ht
    cases b <;> simp [ht.symm]
  rw [e1 _ _ (by decide), e1 _ _ (by decide), e1 _ _ (by decide)]
  have e3 : "End date must be after start date" ∈
      (match data.status with
       | some s =>
         if (s != "" && !(["open", "closed", "upcoming"].contains s)) = true then
           ["Invalid status value"]
         else []
       | none => []) ↔ False := by
    cases data.status with
    | none => simp
    | some v => exact e2 _ _ (by decide)
  have e4 : "End date must be after start date" ∈
      (match data.risk_score with
       | some v =>
         if ((R.parseInt v).isNaN || (R.parseInt v).lt (JSNumber.fin 1)
             || (JSNumber.fin 10).lt (R.parseInt v)) = true then
           ["Risk score must be between 1 and 10"]
         else []
       | none => []) ↔ False := by
    cases data.risk_score with
    | none => simp
    | some v => exact e2 _ _ (by decide)
  have e5 : "End date must be after start date" ∈
      (match data.official_url with
       | some u => if (u != "" && !R.urlParses u) = true then ["Invalid official URL format"]
         else []
       | none => []) ↔ False := by
    cases data.official_url with
    | none => simp
    | some v => exact e2 _ _ (by decide)
  rw [e3, e4, e5]
  simp [hs0, he0, hts, hte, dateAfter]

/-- Claim C13 at the failing input: with every required field given and the
start and end date both "2024-01-01", `validateAirdrop` reports no error and
returns `isValid: true`; with the end date before the start date it reports
"End date must be after start date". -/
theorem validateAirdrop_accepts_equal_dates :
    Koltech.validateAirdrop sampleValidation
        ⟨some "Test", some "Ethereum", some "open", none, none,
          some "2024-01-01", some "2024-01-01"⟩
      = ⟨true, []⟩
    ∧ Koltech.validateAirdrop sampleValidation
        ⟨some "Test", some "Ethereum", some "open", none, none,
          some "2024-06-01", some "2024-01-01"⟩
      = ⟨false, ["End date must be after start date"]⟩ := by
  constructor <;> decide


/-! ## Theorems: removing tags -/

theorem removeTagsAux_sublist (b : Bool) (cs : List Char) :
    (removeTagsAux b cs).Sublist cs := by
  induction cs generalizing b with
  | nil => cases b <;> exact List.Sublist.refl _
  | cons c cs ih =>
    cases b with
    | false =>
      simp only [removeTagsAux]
      split
      · exact (ih true).cons c
      · exact (ih false).cons₂ c
    | true =>
      simp only [removeTagsAux]
      split
      · exact (ih false).cons c
      · exact (ih true).cons c

theorem mem_tagEnd_iff (cs : List Char) : '>' ∈ cs ↔ (tagEnd cs).isSome = true := by
  induction cs with
  | nil => simp [tagEnd]
  | cons c cs ih =>
    by_cases hc : c = '>'
    · simp [tagEnd, hc]
    · simp only [tagEnd, hc, if_false, List.mem_cons, ← ih]
      constructor
      · rintro (h | h)
        · exact absurd h.symm hc
        · exact h
      · exact Or.inr

theorem removeTagsAux_true_of_tagEnd (cs rest : List Char) (h : tagEnd cs = some rest) :
    removeTagsAux true cs = removeTags rest := by
  induction cs with
  | nil => simp [tagEnd] at h
  | cons c cs ih =>
    by_cases hc : c = '>'
    · simp only [tagEnd, hc, if_true, Option.some.injEq] at h
      simp only [removeTagsAux, hc, if_true, removeTags, h]
    · simp only [tagEnd, hc, if_false] at h
      simp only [removeTagsAux, hc, if_false]
      exact ih h

/-- The scan replaces a match of `<[^>]*>` at the current position by nothing
and goes on after it. -/
theorem removeTags_of_match (cs rest : List Char) (h : tagEnd cs = some rest) :
    removeTags ('<' :: cs) = removeTags rest := by
  have hmem : '>' ∈ cs := (mem_tagEnd_iff cs).2 (by simp [h])
  simp only [removeTags, removeTagsAux, hmem, and_self, if_true]
  exact removeTagsAux_true_of_tagEnd cs rest h

/-- The scan keeps the character at a position where `<[^>]*>` does not match
and goes on with the next one. -/
theorem removeTags_of_no_match (c : Char) (cs : List Char)
    (h : c ≠ '<' ∨ tagEnd cs = none) :
    removeTags (c :: cs) = c :: removeTags cs := by
  have hcond : ¬ (c = '<' ∧ '>' ∈ cs) := by
    rintro ⟨hc, hmem⟩
    rcases h with h | h
    · exact h hc
    · have := (mem_tagEnd_iff cs).1 hmem
      simp [h] at this
  simp only [removeTags, removeTagsAux, hcond, if_false]

theorem removeTagsAux_no_tag (b : Bool) (cs pre post : List Char)
    (h : removeTagsAux b cs = pre ++ '<' :: post) : '>' ∉ post := by
  induction cs generalizing b pre with
  | nil => cases b <;> simp [removeTagsAux] at h
  | cons c cs ih =>
    cases b with
    | true =>
      simp only [removeTagsAux] at h
      split at h
      · exact ih false pre h
      · exact ih true pre h
    | false =>
      simp only [removeTagsAux] at h
      split at h
      · exact ih true pre h
      · rename_i hcond
        cases pre with
        | nil =>
          simp only [List.nil_append, List.cons.injEq] at h
          obtain ⟨hc, hpost⟩ := h
          intro hmem
          have hsub := removeTagsAux_sublist false cs
          rw [hpost] at hsub
          exact hcond ⟨hc, hsub.subset hmem⟩
        | cons p pre =>
          simp only [List.cons_append, List.cons.injEq] at h
          exact ih false pre h.2

theorem removeTags_of_no_tag (l : List Char)
    (h : ∀ pre post : List Char, l = pre ++ '<' :: post → '>' ∉ post) :
    removeTags l = l := by
  induction l with
  | nil => rfl
  | cons c cs ih =>
    have hcond : ¬ (c = '<' ∧ '>' ∈ cs) := by
      rintro ⟨hc, hmem⟩
      exact h [] cs (by simp [hc]) hmem
    have hcs : removeTags cs = cs :=
      ih (fun pre post e => h (c :: pre) post (by simp [e]))
    simp only [removeTags, removeTagsAux, hcond, if_false]
    exact congrArg (List.cons c) hcs

/-- Claim C15: for every string `s`, `sanitize.stripHtml(s)` contains no `<`
that is followed anywhere later by a `>`, so that no substring matching
`<[^>]*>` is left; and `stripHtml` is idempotent on every value, string or
not. -/
theorem stripHtml_leaves_no_tag_and_is_idempotent {α : Type} (s : String) (v : String ⊕ α) :
    (∃ t : String, AirdropDiscovery.sanitize.stripHtml (Sum.inl s : String ⊕ α) = Sum.inl t
        ∧ ∀ pre post : List Char, t.toList = pre ++ '<' :: post → '>' ∉ post)
      ∧ AirdropDiscovery.sanitize.stripHtml (AirdropDiscovery.sanitize.stripHtml v)
          = AirdropDiscovery.sanitize.stripHtml v := by
  constructor
  · refine ⟨String.mk (removeTags s.toList), rfl, ?_⟩
    intro pre post h
    exact removeTagsAux_no_tag false s.toList pre post h
  · cases v with
    | inr x => rfl
    | inl w =>
      simp only [AirdropDiscovery.sanitize.stripHtml]
      have hfix : removeTags (removeTags w.toList) = removeTags w.toList :=
        removeTags_of_no_tag _
          (fun pre post e => removeTagsAux_no_tag false w.toList pre post e)
      exact congrArg Sum.inl (congrArg String.mk hfix)

/-- Witness of C15: nested tag fragments are removed in one pass and a second
pass changes nothing. -/
theorem stripHtml_leaves_no_tag_and_is_idempotent_witness :
    AirdropDiscovery.sanitize.stripHtml
        (AirdropDiscovery.sanitize.stripHtml
          (Sum.inl "a <scr<script>ipt>b</p> c < d" : String ⊕ Unit))
      = AirdropDiscovery.sanitize.stripHtml
          (Sum.inl "a <scr<script>ipt>b</p> c < d" : String ⊕ Unit) :=
  (stripHtml_leaves_no_tag_and_is_idempotent "" (Sum.inl "a <scr<script>ipt>b</p> c < d")).2


/-! ## Theorems: `sanitizeInput` -/

theorem replaceAll_flatMap (c : Char) (rep : String) (l : List Char) (f : Char → List Char) :
    replaceAll c rep (l.flatMap f) = l.flatMap (fun x => replaceAll c rep (f x)) := by
  simp only [replaceAll, List.flatMap_assoc]

theorem escapeChar_eq (x : Char) :
    replaceAll (Char.ofNat 39) "&#039;"
      (replaceAll '"' "&quot;"
        (replaceAll '>' "&gt;" (replaceAll '<' "&lt;" (replaceAll '&' "&amp;" [x]))))
      = escapeChar x := by
  unfold escapeChar
  by_cases h1 : x = '&'
  · subst h1; decide
  by_cases h2 : x = '<'
  · subst h2; decide
  by_cases h3 : x = '>'
  · subst h3; decide
  by_cases h4 : x = '"'
  · subst h4; decide
  by_cases h5 : x = Char.ofNat 39
  · subst h5; decide
  simp [replaceAll, h1, h2, h3, h4, h5]

/-- The five replacements of `sanitizeInput`, one after the other, act on each
character separately. -/
theorem escape_eq_flatMap (l : List Char) :
    replaceAll (Char.ofNat 39) "&#039;"
      (replaceAll '"' "&quot;"
        (replaceAll '>' "&gt;" (replaceAll '<' "&lt;" (replaceAll '&' "&amp;" l))))
      = l.flatMap escapeChar := by
  have h0 : replaceAll '&' "&amp;" l = l.flatMap (fun x => replaceAll '&' "&amp;" [x]) := by
    simp [replaceAll]
  rw [h0, replaceAll_flatMap, replaceAll_flatMap, replaceAll_flatMap, replaceAll_flatMap]
  simp only [escapeChar_eq]

/-- The characters an escaped character is made of: an entity, or the
character itself when it is none of the five. -/
theorem escapeChar_cases (x : Char) :
    (∃ e ∈ ["amp;", "lt;", "gt;", "quot;", "#039;"], escapeChar x = '&' :: e.toList)
      ∨ (escapeChar x = [x] ∧ x ≠ '&' ∧ x ≠ '<' ∧ x ≠ '>' ∧ x ≠ '"' ∧ x ≠ Char.ofNat 39) := by
  unfold escapeChar
  by_cases h1 : x = '&'
  · exact Or.inl ⟨"amp;", by simp, by simp [h1]⟩
  by_cases h2 : x = '<'
  · exact Or.inl ⟨"lt;", by simp, by simp [h2]⟩
  by_cases h3 : x = '>'
  · exact Or.inl ⟨"gt;", by simp, by simp [h3]⟩
  by_cases h4 : x = '"'
  · exact Or.inl ⟨"quot;", by simp, by simp [h4]⟩
  by_cases h5 : x = Char.ofNat 39
  · refine Or.inl ⟨"#039;", by simp, ?_⟩
    rw [h5]; decide
  exact Or.inr ⟨by simp [h1, h2, h3, h4, h5], h1, h2, h3, h4, h5⟩

theorem entity_chars (e : String) (he : e ∈ ["amp;", "lt;", "gt;", "quot;", "#039;"]) :
    '&' ∉ e.toList ∧ '<' ∉ e.toList ∧ '>' ∉ e.toList ∧ '"' ∉ e.toList
      ∧ Char.ofNat 39 ∉ e.toList := by
  simp only [List.mem_cons, List.mem_singleton, List.not_mem_nil, or_false] at he
  rcases he with rfl | rfl | rfl | rfl | rfl <;> decide

theorem mem_flatMap_escapeChar (l : List Char) (y : Char) (hy : y ∈ l.flatMap escapeChar) :
    y ≠ '<' ∧ y ≠ '>' ∧ y ≠ '"' ∧ y ≠ Char.ofNat 39 := by
  rw [List.mem_flatMap] at hy
  obtain ⟨x, _, hyx⟩ := hy
  rcases escapeChar_cases x with ⟨e, he, hx⟩ | ⟨hx, _, h2, h3, h4, h5⟩
  · rw [hx, List.mem_cons] at hyx
    obtain ⟨_, e2, e3, e4, e5⟩ := entity_chars e he
    rcases hyx with rfl | hyx
    · decide
    · exact ⟨fun h => e2 (h ▸ hyx), fun h => e3 (h ▸ hyx), fun h => e4 (h ▸ hyx),
        fun h => e5 (h ▸ hyx)⟩
  · rw [hx, List.mem_singleton] at hyx
    subst hyx
    exact ⟨h2, h3, h4, h5⟩

theorem split_after_word (w rest pre post : List Char) (hw : '&' ∉ w)
    (h : w ++ rest = pre ++ '&' :: post) :
    ∃ pre2, pre = w ++ pre2 ∧ rest = pre2 ++ '&' :: post := by
  induction w generalizing pre with
  | nil => exact ⟨pre, rfl, h⟩
  | cons c w ih =>
    cases pre with
    | nil =>
      simp only [List.cons_append, List.nil_append, List.cons.injEq] at h
      exact absurd (h.1 ▸ List.mem_cons_self c w) hw
    | cons p pre =>
      simp only [List.cons_append, List.cons.injEq] at h
      obtain ⟨pre2, hp, hr⟩ := ih pre (fun hm => hw (List.mem_cons_of_mem c hm)) h.2
      exact ⟨pre2, by rw [h.1, hp]; rfl, hr⟩

theorem ampersand_starts_entity (l pre post : List Char)
    (h : l.flatMap escapeChar = pre ++ '&' :: post) :
    ∃ e ∈ ["amp;", "lt;", "gt;", "quot;", "#039;"], e.toList <+: post := by
  induction l generalizing pre with
  | nil =>
    simp only [List.flatMap_nil] at h
    exact absurd h (by simp)
  | cons x xs ih =>
    rw [List.flatMap_cons] at h
    rcases escapeChar_cases x with ⟨e, he, hx⟩ | ⟨hx, h1, _⟩
    · rw [hx] at h
      cases pre with
      | nil =>
        simp only [List.cons_append, List.nil_append, List.cons.injEq, true_and] at h
        exact ⟨e, he, h ▸ List.prefix_append _ _⟩
      | cons p pre =>
        simp only [List.cons_append, List.cons.injEq] at h
        obtain ⟨pre2, _, hr⟩ := split_after_word e.toList _ pre post (entity_chars e he).1 h.2
        exact ih pre2 hr
    · rw [hx] at h
      obtain ⟨pre2, _, hr⟩ := split_after_word [x] _ pre post
        (by simp only [List.mem_singleton]; exact fun hm => h1 hm.symm) h
      exact ih pre2 hr

/-- Claim C14: for every string `s`, the string returned by `sanitizeInput(s)`
contains none of the characters `<`, `>`, the double quote and the single
quote, and every `&` in it is the first character of one of the entities
`&amp;`, `&lt;`, `&gt;`, `&quot;`, `&#039;`; an input that is not a string is
returned unchanged. -/
theorem sanitizeInput_escapes_markup {α : Type} (s : String) (x : α) :
    (∃ t : String, Koltech.sanitizeInput (Sum.inl s : String ⊕ α) = Sum.inl t
        ∧ '<' ∉ t.toList ∧ '>' ∉ t.toList ∧ '"' ∉ t.toList ∧ Char.ofNat 39 ∉ t.toList
        ∧ ∀ pre post : List Char, t.toList = pre ++ '&' :: post →
            ∃ e ∈ ["amp;", "lt;", "gt;", "quot;", "#039;"], e.toList <+: post)
      ∧ Koltech.sanitizeInput (Sum.inr x : String ⊕ α) = Sum.inr x := by
  refine ⟨⟨String.mk ((removeTags s.toList).flatMap escapeChar), ?_, ?_, ?_, ?_, ?_, ?_⟩, rfl⟩
  · simp only [Koltech.sanitizeInput, escape_eq_flatMap]
  · exact fun h => (mem_flatMap_escapeChar _ _ h).1 rfl
  · exact fun h => (mem_flatMap_escapeChar _ _ h).2.1 rfl
  · exact fun h => (mem_flatMap_escapeChar _ _ h).2.2.1 rfl
  · exact fun h => (mem_flatMap_escapeChar _ _ h).2.2.2 rfl
  · intro pre post h
    exact ampersand_starts_entity _ pre post h

/-- Witness of C14: the value of `sanitizeInput` on a string with a tag, an
ampersand, a single quote and a lone `<`. -/
theorem sanitizeInput_escapes_markup_witness :
    ∃ t : String,
      Koltech.sanitizeInput (Sum.inl "Tom & <b>Jerry</b> it's 1 < 2" : String ⊕ Unit) = Sum.inl t
        ∧ '<' ∉ t.toList ∧ '>' ∉ t.toList ∧ '"' ∉ t.toList ∧ Char.ofNat 39 ∉ t.toList
        ∧ ∀ pre post : List Char, t.toList = pre ++ '&' :: post →
            ∃ e ∈ ["amp;", "lt;", "gt;", "quot;", "#039;"], e.toList <+: post :=
  (sanitizeInput_escapes_markup "Tom & <b>Jerry</b> it's 1 < 2" ()).1

end Airdrops
